import Mathlib

/-!
Shallow embedding of the deqjs QuickJS-bytecode decompiler core
(src/crates/deqjs_lib/src/lib.rs) and proofs about the claims of its
specification.  Rust machine integers are modelled as `Nat`/`Int` with
explicit wrapping where the Rust code can wrap; fallible code returns
`Except DeqjsError`.  Loops whose Rust termination argument is "the cursor
advances through a finite buffer" are modelled with an explicit fuel
parameter that is always instantiated large enough for the loop to run to
completion exactly as in Rust.
-/

set_option maxRecDepth 4096

/-- Error taxonomy, mirroring `enum DeqjsError`. -/
inductive DeqjsError where
  | eof
  | invalidVersion (b : Nat)
  | unsupportedTag (b : Nat)
  | invalidSleb128
  | invalidOpcode (b : Nat)
  | truncatedOpcode (pc size remaining : Nat)
  | invalidAtomIndex (idx : Nat)
  | invalidConstIndex (idx : Nat)
  deriving Repr, DecidableEq

/-- Decompile mode, mirroring `enum DecompileMode`. -/
inductive DecompileMode where
  | pseudo
  | disasm
  deriving Repr, DecidableEq

/-- Version selector, mirroring `enum DecompileVersion`. -/
inductive DecompileVersion where
  | auto
  | current
  | legacy
  deriving Repr, DecidableEq

/-- Options record, mirroring `struct DecompileOptions`. -/
structure DecompileOptions where
  mode : DecompileMode
  version : DecompileVersion
  deobfuscate : Bool
  optimize : Bool
  deriving Repr, DecidableEq

/-- `DecompileOptions::default()`. -/
def DecompileOptions.default : DecompileOptions :=
  { mode := .pseudo, version := .auto, deobfuscate := false, optimize := false }

/-- Atom representation, mirroring `enum AtomRepr`. -/
inductive AtomRepr where
  | null
  | builtin (id : Nat)
  | string (s : String)
  | symbol (typ : Nat) (desc : String)
  | taggedInt (v : Nat)
  | raw (v : Nat)
  deriving Repr, DecidableEq

/-- Modelled from the spec: `tables::BUILTIN_ATOMS` is emitted by the build
script from the engine's atom header and is not part of the sources under
`src/`; the spec only says it has roughly 200 entries.  None of the claims
depends on its contents or length, so it is modelled as an abstract empty
roster (the `AtomRepr.builtin` display consequently always falls back to
the `<atom:N>` form, which no settled claim exercises). -/
def builtinAtoms : List String := []

/-- `impl fmt::Display for AtomRepr`. -/
def atomToString : AtomRepr → String
  | .null => "<null>"
  | .builtin id =>
    let idx := id - 1
    if id ≠ 0 ∧ idx < builtinAtoms.length then
      builtinAtoms.getD idx ""
    else
      "<atom:" ++ toString id ++ ">"
  | .string s => s
  | .symbol typ desc => "<sym:" ++ toString typ ++ ":" ++ desc ++ ">"
  | .taggedInt v => "<int:" ++ toString v ++ ">"
  | .raw v => "<atom:" ++ toString v ++ ">"

/-- Two-digit lowercase hex of a byte, as Rust `{:02x}` formats it. -/
def hexDigit (n : Nat) : String :=
  (["0","1","2","3","4","5","6","7","8","9","a","b","c","d","e","f"].getD n "0")

/-- Rust `{:02x}` formatting of a byte value. -/
def hex02 (n : Nat) : String :=
  hexDigit (n / 16 % 16) ++ hexDigit (n % 16)

/-- Kernel-reducible prefix test on strings (the mnemonic tables are all
ASCII, so character-level prefix equals Rust's byte-level
`str::starts_with`). -/
def strStarts (s pre : String) : Bool :=
  pre.toList.isPrefixOf s.toList

/-- Kernel-reducible suffix test on strings (`str::ends_with`). -/
def strEnds (s suf : String) : Bool :=
  suf.toList.isSuffixOf s.toList

/-- Kernel-reducible character drop (`&s[n..]` on ASCII strings). -/
def strDropChars (s : String) (n : Nat) : String :=
  String.mk (s.toList.drop n)

/-- Kernel-reducible drop of the final `n` characters. -/
def strDropRightChars (s : String) (n : Nat) : String :=
  String.mk (s.toList.take (s.toList.length - n))

/-- Kernel-reducible digit-string parser: `some` exactly on nonempty
all-digit strings, as `str::parse` before its range check. -/
def parseNatDigits (s : String) : Option Nat :=
  if s.toList ≠ [] ∧ s.toList.all (fun c => c.isDigit) then
    some (s.toList.foldl (fun acc c => acc * 10 + (c.toNat - 48)) 0)
  else
    Option.none

/-- Kernel-reducible `str::trim` (leading and trailing whitespace). -/
def trimStr (s : String) : String :=
  String.mk (((s.toList.dropWhile Char.isWhitespace).reverse.dropWhile
    Char.isWhitespace).reverse)

/-- `impl fmt::Display for DeqjsError` (the `thiserror` messages). -/
def errToString : DeqjsError → String
  | .eof => "unexpected end of input"
  | .invalidVersion b => "invalid QuickJS bytecode version: " ++ toString b
  | .unsupportedTag b => "unsupported tag: " ++ toString b
  | .invalidSleb128 => "invalid sleb128"
  | .invalidOpcode b => "invalid opcode: 0x" ++ hex02 b
  | .truncatedOpcode pc size remaining =>
    "truncated opcode at pc=" ++ toString pc ++ " (opcode size=" ++ toString size ++
      ", remaining=" ++ toString remaining ++ ")"
  | .invalidAtomIndex idx => "invalid atom index: " ++ toString idx
  | .invalidConstIndex idx => "invalid constant pool index: " ++ toString idx

/-- Byte reader over a fixed byte slice, mirroring `struct Reader`.
Bytes are `Nat`s that are `< 256` for any real input. -/
structure ReaderSt where
  buf : List Nat
  pos : Nat
  deriving Repr, DecidableEq

/-- `Reader::peek_u8`. -/
def ReaderSt.peekU8 (r : ReaderSt) : Option Nat :=
  r.buf.get? r.pos

/-- `Reader::remaining`. -/
def ReaderSt.remaining (r : ReaderSt) : Nat :=
  r.buf.length - r.pos

/-- `Reader::get_u8`. -/
def ReaderSt.getU8 (r : ReaderSt) : Except DeqjsError (Nat × ReaderSt) :=
  if r.remaining < 1 then .error .eof
  else .ok (r.buf.getD r.pos 0, { r with pos := r.pos + 1 })

/-- `Reader::get_bytes`. -/
def ReaderSt.getBytes (r : ReaderSt) (n : Nat) : Except DeqjsError (List Nat × ReaderSt) :=
  if r.remaining < n then .error .eof
  else .ok ((r.buf.drop r.pos).take n, { r with pos := r.pos + n })

/-- Little-endian read of `n` bytes from the front of a list. -/
def leVal : List Nat → Nat
  | [] => 0
  | b :: rest => b + 256 * leVal rest

/-- `Reader::get_u16` (little endian). -/
def ReaderSt.getU16 (r : ReaderSt) : Except DeqjsError (Nat × ReaderSt) :=
  if r.remaining < 2 then .error .eof
  else .ok (leVal ((r.buf.drop r.pos).take 2), { r with pos := r.pos + 2 })

/-- `Reader::get_u32` (little endian). -/
def ReaderSt.getU32 (r : ReaderSt) : Except DeqjsError (Nat × ReaderSt) :=
  if r.remaining < 4 then .error .eof
  else .ok (leVal ((r.buf.drop r.pos).take 4), { r with pos := r.pos + 4 })

/-- `Reader::get_u64` (little endian). -/
def ReaderSt.getU64 (r : ReaderSt) : Except DeqjsError (Nat × ReaderSt) :=
  if r.remaining < 8 then .error .eof
  else .ok (leVal ((r.buf.drop r.pos).take 8), { r with pos := r.pos + 8 })

/-- `Reader::get_f64`: the eight little-endian bytes are kept as their raw
64-bit pattern (floating-point semantics are outside the embedding; no
claim depends on float values). -/
def ReaderSt.getF64 (r : ReaderSt) : Except DeqjsError (Nat × ReaderSt) :=
  if r.remaining < 8 then .error .eof
  else .ok (leVal ((r.buf.drop r.pos).take 8), { r with pos := r.pos + 8 })

/-- The loop body of `Reader::get_leb128_u32`, recursing over the unread
suffix of the buffer and counting consumed bytes.  Faithful to the Rust
loop: the shift check happens after the continuation check, and shift
reaching 32 yields the `Eof` error as in the source. -/
def lebLoop : List Nat → Nat → Nat → Except DeqjsError (Nat × Nat)
  | [], _, _ => .error .eof
  | b :: rest, shift, acc =>
    let acc' := acc ||| ((b &&& 0x7f) <<< shift)
    if b &&& 0x80 = 0 then .ok (acc', 1)
    else
      let shift' := shift + 7
      if 32 ≤ shift' then .error .eof
      else
        match lebLoop rest shift' acc' with
        | .ok (v, c) => .ok (v, c + 1)
        | .error e => .error e

/-- `Reader::get_leb128_u32`. -/
def ReaderSt.getLeb128U32 (r : ReaderSt) : Except DeqjsError (Nat × ReaderSt) :=
  match lebLoop (r.buf.drop r.pos) 0 0 with
  | .ok (v, c) => .ok (v, { r with pos := r.pos + c })
  | .error e => .error e

/-- The loop of `Reader::get_sleb128_i32`: result is the 64-bit pattern of
the Rust `i64` accumulator (ORs of disjoint 7-bit groups, truncated to 64
bits exactly as Rust shifts discard high bits).  Returns the accumulated
pattern, the final shift, the last byte read, and the consumed count. -/
def slebLoop : List Nat → Nat → Nat → Except DeqjsError (Nat × Nat × Nat × Nat)
  | [], _, _ => .error .eof
  | b :: rest, shift, acc =>
    let acc' := (acc ||| ((b &&& 0x7f) <<< shift)) % 2 ^ 64
    let shift' := shift + 7
    if b &&& 0x80 = 0 then .ok (acc', shift', b, 1)
    else if 64 ≤ shift' then .error .invalidSleb128
    else
      match slebLoop rest shift' acc' with
      | .ok (a, s, l, c) => .ok (a, s, l, c + 1)
      | .error e => .error e

/-- Two's-complement reading of the low 32 bits of a pattern (`as i32`). -/
def toInt32 (n : Nat) : Int :=
  let low : Nat := n % 2 ^ 32
  if low < 2 ^ 31 then (low : Int) else (low : Int) - 2 ^ 32

/-- The epilogue of `Reader::get_sleb128_i32`: sign extension when the
final shift is below 64 and bit 6 of the last byte is set, then `as i32`
truncation. -/
def slebFinish (acc shift lastB : Nat) : Int :=
  let acc2 :=
    if shift < 64 ∧ lastB &&& 0x40 ≠ 0 then (acc ||| (2 ^ 64 - 2 ^ shift)) % 2 ^ 64
    else acc
  toInt32 acc2

/-- `Reader::get_sleb128_i32`. -/
def ReaderSt.getSleb128I32 (r : ReaderSt) : Except DeqjsError (Int × ReaderSt) :=
  match slebLoop (r.buf.drop r.pos) 0 0 with
  | .ok (a, s, l, c) => .ok (slebFinish a s l, { r with pos := r.pos + c })
  | .error e => .error e

/-- Atom table, mirroring `struct AtomTable`. -/
structure AtomTable where
  firstAtom : Nat
  idxToAtom : List AtomRepr
  deriving Repr, DecidableEq

/-- `AtomTable::builtin_end_atom_id`. -/
def AtomTable.builtinEndAtomId : Nat :=
  builtinAtoms.length + 1

/-- `AtomTable::resolve_idx`. -/
def AtomTable.resolveIdx (t : AtomTable) (idx : Nat) : Except DeqjsError AtomRepr :=
  if idx = 0 then .ok .null
  else if idx < t.firstAtom then .ok (.builtin idx)
  else
    let off := idx - t.firstAtom
    if t.idxToAtom.length ≤ off then .error (.invalidAtomIndex idx)
    else .ok (t.idxToAtom.getD off .null)

/-- `AtomTable::read_atom`. -/
def AtomTable.readAtom (t : AtomTable) (r : ReaderSt) :
    Except DeqjsError (AtomRepr × ReaderSt) := do
  let (v, r) ← r.getLeb128U32
  if v &&& 1 = 1 then
    .ok (.taggedInt (v >>> 1), r)
  else
    match t.resolveIdx (v >>> 1) with
    | .ok a => .ok (a, r)
    | .error e => .error e

/-- Tag constants of the current dialect (`BC_TAG_*`). -/
def BC_TAG_NULL : Nat := 1
def BC_TAG_UNDEFINED : Nat := 2
def BC_TAG_BOOL_FALSE : Nat := 3
def BC_TAG_BOOL_TRUE : Nat := 4
def BC_TAG_INT32 : Nat := 5
def BC_TAG_FLOAT64 : Nat := 6
def BC_TAG_STRING : Nat := 7
def BC_TAG_OBJECT : Nat := 8
def BC_TAG_ARRAY : Nat := 9
def BC_TAG_BIG_INT : Nat := 10
def BC_TAG_TEMPLATE_OBJECT : Nat := 11
def BC_TAG_FUNCTION_BYTECODE : Nat := 12
def BC_TAG_MODULE : Nat := 13
def BC_TAG_TYPED_ARRAY : Nat := 14
def BC_TAG_ARRAY_BUFFER : Nat := 15
def BC_TAG_SHARED_ARRAY_BUFFER : Nat := 16
def BC_TAG_REGEXP : Nat := 17
def BC_TAG_DATE : Nat := 18
def BC_TAG_OBJECT_VALUE : Nat := 19
def BC_TAG_OBJECT_REFERENCE : Nat := 20
def BC_TAG_MAP : Nat := 21
def BC_TAG_SET : Nat := 22
def BC_TAG_SYMBOL : Nat := 23

/-- Tag constants of the legacy (v1) dialect (`BC_TAG_*_V1`). -/
def BC_TAG_TEMPLATE_OBJECT_V1 : Nat := 13
def BC_TAG_FUNCTION_BYTECODE_V1 : Nat := 14
def BC_TAG_MODULE_V1 : Nat := 15
def BC_TAG_TYPED_ARRAY_V1 : Nat := 16
def BC_TAG_ARRAY_BUFFER_V1 : Nat := 17
def BC_TAG_SHARED_ARRAY_BUFFER_V1 : Nat := 18
def BC_TAG_DATE_V1 : Nat := 19
def BC_TAG_OBJECT_VALUE_V1 : Nat := 20
def BC_TAG_OBJECT_REFERENCE_V1 : Nat := 21

def BC_VERSION : Nat := 23
def BC_VERSION_V1 : Nat := 1

/-- The fixed legacy built-in atom roster (`LEGACY_V1_ATOMS`). -/
def LEGACY_V1_ATOMS : List String := [
  "null", "false", "true", "if", "else", "return", "var", "this", "delete", "void", "typeof",
  "new", "in", "instanceof", "do", "while", "for", "break", "continue", "switch", "case",
  "default", "throw", "try", "catch", "finally", "function", "debugger", "with", "__FILE__",
  "__DIR__", "class", "const", "enum", "export", "extends", "import", "super", "implements",
  "interface", "let", "package", "private", "protected", "public", "static", "yield", "await",
  "", "length", "fileName", "lineNumber", "message", "errors", "stack", "name", "toString",
  "toLocaleString", "valueOf", "eval", "prototype", "constructor", "configurable", "writable",
  "enumerable", "value", "get", "set", "of", "__proto__", "undefined", "number", "boolean",
  "string", "object", "symbol", "integer", "unknown", "arguments", "callee", "caller",
  "<eval>", "<ret>", "<var>", "<arg_var>", "<with>", "lastIndex", "target", "index", "input",
  "defineProperties", "apply", "join", "concat", "split", "construct", "getPrototypeOf",
  "setPrototypeOf", "isExtensible", "preventExtensions", "has", "deleteProperty",
  "defineProperty", "getOwnPropertyDescriptor", "ownKeys", "add", "done", "next", "values",
  "source", "flags", "global", "unicode", "raw", "new.target", "this.active_func",
  "<home_object>", "<computed_field>", "<static_computed_field>", "<class_fields_init>",
  "<brand>", "#constructor", "as", "from", "meta", "*default*", "*", "Module", "then",
  "resolve", "reject", "promise", "proxy", "revoke", "async", "exec", "groups", "status",
  "reason", "globalThis", "not-equal", "timed-out", "ok", "toJSON", "Object", "Array",
  "Error", "Number", "String", "Boolean", "Symbol", "Arguments", "Math", "JSON", "Date",
  "Function", "GeneratorFunction", "ForInIterator", "RegExp", "ArrayBuffer",
  "SharedArrayBuffer", "Uint8ClampedArray", "Int8Array", "Uint8Array", "Int16Array",
  "Uint16Array", "Int32Array", "Uint32Array", "Float32Array", "Float64Array", "DataView",
  "Map", "Set", "WeakMap", "WeakSet", "Map Iterator", "Set Iterator", "Array Iterator",
  "String Iterator", "RegExp String Iterator", "Generator", "Proxy", "Promise",
  "PromiseResolveFunction", "PromiseRejectFunction", "AsyncFunction", "AsyncFunctionResolve",
  "AsyncFunctionReject", "AsyncGeneratorFunction", "AsyncGenerator", "EvalError",
  "RangeError", "ReferenceError", "SyntaxError", "TypeError", "URIError", "InternalError",
  "<brand>", "Symbol.toPrimitive", "Symbol.iterator", "Symbol.match", "Symbol.matchAll",
  "Symbol.replace", "Symbol.search", "Symbol.split", "Symbol.toStringTag",
  "Symbol.isConcatSpreadable", "Symbol.hasInstance", "Symbol.species", "Symbol.unscopables",
  "Symbol.asyncIterator"]

/-- One code unit of a wide string: valid Unicode scalars become the
character, others the replacement character, as `char::from_u32(..)
.unwrap_or(REPLACEMENT)` does. -/
def charOfU16 (c : Nat) : Char :=
  if h : Nat.isValidChar c then Char.ofNatAux c h else '�'

/-- Wide-string payload decoding: little-endian 16-bit units. -/
def wideChars : List Nat → List Char
  | b0 :: b1 :: rest => charOfU16 (b0 + 256 * b1) :: wideChars rest
  | _ => []

/-- Worker for lossy UTF-8 decoding; the fuel is at least the list length,
and every step consumes at least one byte, so the fuel never runs out for
the instantiation `utf8Lossy` uses. -/
def utf8LossyGo : Nat → List Nat → List Char
  | 0, _ => []
  | _, [] => []
  | fuel + 1, b :: rest =>
    if b < 0x80 then charOfU16 b :: utf8LossyGo fuel rest
    else if 0xc0 ≤ b ∧ b < 0xe0 then
      match rest with
      | c1 :: rest' =>
        if 0x80 ≤ c1 ∧ c1 < 0xc0 then
          charOfU16 ((b - 0xc0) * 64 + (c1 - 0x80)) :: utf8LossyGo fuel rest'
        else '�' :: utf8LossyGo fuel rest
      | [] => ['�']
    else if 0xe0 ≤ b ∧ b < 0xf0 then
      match rest with
      | c1 :: c2 :: rest' =>
        if (0x80 ≤ c1 ∧ c1 < 0xc0) ∧ (0x80 ≤ c2 ∧ c2 < 0xc0) then
          charOfU16 ((b - 0xe0) * 4096 + (c1 - 0x80) * 64 + (c2 - 0x80)) :: utf8LossyGo fuel rest'
        else '�' :: utf8LossyGo fuel rest
      | _ => ['�']
    else '�' :: utf8LossyGo fuel rest

/-- Lossy UTF-8 decoding of a byte list, used for narrow strings as Rust
`String::from_utf8_lossy` is.  ASCII (the only narrow payloads any claim
exercises) is decoded exactly; multi-byte sequences are decoded per UTF-8,
invalid bytes become the replacement character. -/
def utf8Lossy (l : List Nat) : List Char :=
  utf8LossyGo l.length l

/-- `read_qjs_string`: LEB128 header `(length<<1)|wide`, then the payload. -/
def readQjsString (r : ReaderSt) : Except DeqjsError (String × ReaderSt) := do
  let (lenFlags, r) ← r.getLeb128U32
  let isWide := lenFlags &&& 1 = 1
  let len := lenFlags >>> 1
  if isWide then
    let (bytes, r) ← r.getBytes (len * 2)
    .ok (String.mk (wideChars bytes), r)
  else
    let (bytes, r) ← r.getBytes len
    .ok (String.mk (utf8Lossy bytes), r)

/-- `read_atom_table` (current dialect). -/
def readAtomTable (r : ReaderSt) : Except DeqjsError (AtomTable × ReaderSt) := do
  let (version, r) ← r.getU8
  if version ≠ BC_VERSION then
    .error (.invalidVersion version)
  else do
    let (count, r) ← r.getLeb128U32
    let rec go (n : Nat) (acc : List AtomRepr) (r : ReaderSt) :
        Except DeqjsError (List AtomRepr × ReaderSt) :=
      match n with
      | 0 => .ok (acc.reverse, r)
      | n + 1 => do
        let (typ, r) ← r.getU8
        if typ = 0 then do
          let (atom, r) ← r.getU32
          go n (.raw atom :: acc) r
        else do
          let (desc, r) ← readQjsString r
          if typ = 1 then go n (.string desc :: acc) r
          else go n (.symbol typ desc :: acc) r
    let (idxToAtom, r) ← go count [] r
    .ok ({ firstAtom := AtomTable.builtinEndAtomId, idxToAtom }, r)

/-- Legacy atom table, mirroring `struct AtomTableV1`. -/
structure AtomTableV1 where
  atoms : List String
  deriving Repr, DecidableEq

/-- `AtomTableV1::to_atom_table`. -/
def AtomTableV1.toAtomTable (t : AtomTableV1) : AtomTable :=
  { firstAtom := 1, idxToAtom := t.atoms.map AtomRepr.string }

/-- `AtomTableV1::read_atom_id`. -/
def AtomTableV1.readAtomId (t : AtomTableV1) (r : ReaderSt) :
    Except DeqjsError (AtomRepr × ReaderSt) := do
  let (id, r) ← r.getLeb128U32
  if id = 0 then .ok (.null, r)
  else
    let idx := id - 1
    if idx < t.atoms.length then .ok (.string (t.atoms.getD idx ""), r)
    else .ok (.raw id, r)

/-- `read_atom_table_v1`. -/
def readAtomTableV1 (r : ReaderSt) : Except DeqjsError (AtomTableV1 × ReaderSt) := do
  let (version, r) ← r.getU8
  if version ≠ BC_VERSION_V1 then
    .error (.invalidVersion version)
  else do
    let (count, r) ← r.getLeb128U32
    let rec go (n : Nat) (acc : List String) (r : ReaderSt) :
        Except DeqjsError (List String × ReaderSt) :=
      match n with
      | 0 => .ok (acc.reverse, r)
      | n + 1 => do
        let (s, r) ← readQjsString r
        go n (s :: acc) r
    let (fileAtoms, r) ← go count [] r
    .ok ({ atoms := LEGACY_V1_ATOMS ++ fileAtoms }, r)

/-- Local variable definition, mirroring `struct VarDef`. -/
structure VarDef where
  name : AtomRepr
  scopeLevel : Nat
  scopeNext : Nat
  flags : Nat
  varRefIdx : Option Nat
  deriving Repr, DecidableEq

/-- Closure variable, mirroring `struct ClosureVar`. -/
structure ClosureVar where
  name : AtomRepr
  varIdx : Nat
  flags : Nat
  deriving Repr, DecidableEq

mutual

/-- Value tree, mirroring `enum Value`.  The `float64` payload is the raw
64-bit pattern of the `f64` (see `ReaderSt.getF64`). -/
inductive Value where
  | null
  | undefined
  | bool (b : Bool)
  | int32 (v : Int)
  | float64 (bits : Nat)
  | string (s : String)
  | array (items : List Value)
  | object (props : List (AtomRepr × Value))
  | module (name : AtomRepr) (funcObj : Value)
  | regexp (pattern bytecode : String)
  | bigInt (bytes : List Nat)
  | symbol (atom : AtomRepr)
  | arrayBuffer (bytes : List Nat)
  | typedArray (kind len offset : Nat) (buffer : Value)
  | date (value : Value)
  | function (b : FunctionBytecode)
  | unsupported (tag : Nat)

/-- Function record, mirroring `struct FunctionBytecode`. -/
inductive FunctionBytecode where
  | mk
    (funcName : AtomRepr)
    (isStrictMode : Bool)
    (argCount varCount definedArgCount stackSize varRefCount closureVarCount : Nat)
    (cpoolCount byteCodeLen : Nat)
    (locals : List VarDef)
    (closureVars : List ClosureVar)
    (cpool : List Value)
    (bytecode : List Nat)

end

def FunctionBytecode.funcName : FunctionBytecode → AtomRepr
  | .mk n _ _ _ _ _ _ _ _ _ _ _ _ _ => n

def FunctionBytecode.isStrictMode : FunctionBytecode → Bool
  | .mk _ s _ _ _ _ _ _ _ _ _ _ _ _ => s

def FunctionBytecode.argCount : FunctionBytecode → Nat
  | .mk _ _ a _ _ _ _ _ _ _ _ _ _ _ => a

def FunctionBytecode.varCount : FunctionBytecode → Nat
  | .mk _ _ _ v _ _ _ _ _ _ _ _ _ _ => v

def FunctionBytecode.definedArgCount : FunctionBytecode → Nat
  | .mk _ _ _ _ d _ _ _ _ _ _ _ _ _ => d

def FunctionBytecode.stackSize : FunctionBytecode → Nat
  | .mk _ _ _ _ _ s _ _ _ _ _ _ _ _ => s

def FunctionBytecode.varRefCount : FunctionBytecode → Nat
  | .mk _ _ _ _ _ _ v _ _ _ _ _ _ _ => v

def FunctionBytecode.closureVarCount : FunctionBytecode → Nat
  | .mk _ _ _ _ _ _ _ c _ _ _ _ _ _ => c

def FunctionBytecode.cpoolCount : FunctionBytecode → Nat
  | .mk _ _ _ _ _ _ _ _ c _ _ _ _ _ => c

def FunctionBytecode.byteCodeLen : FunctionBytecode → Nat
  | .mk _ _ _ _ _ _ _ _ _ l _ _ _ _ => l

def FunctionBytecode.locals : FunctionBytecode → List VarDef
  | .mk _ _ _ _ _ _ _ _ _ _ l _ _ _ => l

def FunctionBytecode.closureVars : FunctionBytecode → List ClosureVar
  | .mk _ _ _ _ _ _ _ _ _ _ _ c _ _ => c

def FunctionBytecode.cpool : FunctionBytecode → List Value
  | .mk _ _ _ _ _ _ _ _ _ _ _ _ c _ => c

def FunctionBytecode.bytecode : FunctionBytecode → List Nat
  | .mk _ _ _ _ _ _ _ _ _ _ _ _ _ b => b

/-- Rust `{}` formatting of an `f64` is not modelled (no claim touches a
float); the raw bit pattern stands in for the decimal rendering. -/
def floatBitsToString (bits : Nat) : String :=
  toString bits

/-- `impl fmt::Display for Value`. -/
def valueToString : Value → String
  | .null => "null"
  | .undefined => "undefined"
  | .bool b => if b then "true" else "false"
  | .int32 v => toString v
  | .float64 bits => floatBitsToString bits
  | .string s => "\"" ++ s ++ "\""
  | .array v => "<array:" ++ toString v.length ++ ">"
  | .object v => "<object:" ++ toString v.length ++ ">"
  | .module name _ => "<module:" ++ atomToString name ++ ">"
  | .regexp pattern _ => "<regexp:" ++ pattern ++ ">"
  | .bigInt bytes => "<bigint:" ++ toString bytes.length ++ " bytes>"
  | .symbol atom => "<symbol:" ++ atomToString atom ++ ">"
  | .arrayBuffer bytes => "<arraybuffer:" ++ toString bytes.length ++ " bytes>"
  | .typedArray kind len _ _ => "<typedarray:" ++ toString kind ++ " len=" ++ toString len ++ ">"
  | .date _ => "<date>"
  | .function b => "<function:" ++ atomToString b.funcName ++ ">"
  | .unsupported tag => "<tag:" ++ toString tag ++ ">"

/-- Truncation of a `u32` value to `u16` (`as u16`). -/
def toU16 (n : Nat) : Nat := n % 65536

/-- The module requested-atoms loop of `read_value_v1`. -/
def skipAtomIdsV1 : Nat → ReaderSt → AtomTableV1 → Except DeqjsError ReaderSt
  | 0, r, _ => .ok r
  | n + 1, r, atoms => do
    let (_, r) ← atoms.readAtomId r
    skipAtomIdsV1 n r atoms

/-- The module exports loop of `read_value_v1`. -/
def skipExportsV1 : Nat → ReaderSt → AtomTableV1 → Except DeqjsError ReaderSt
  | 0, r, _ => .ok r
  | n + 1, r, atoms => do
    let (exportType, r) ← r.getU8
    let r ←
      if exportType = 0 then do
        let (_, r) ← r.getLeb128U32
        pure r
      else do
        let (_, r) ← r.getLeb128U32
        let (_, r) ← atoms.readAtomId r
        pure r
    let (_, r) ← atoms.readAtomId r
    skipExportsV1 n r atoms

/-- The module star-exports loop of `read_value_v1`. -/
def skipLebsV1 : Nat → ReaderSt → Except DeqjsError ReaderSt
  | 0, r => .ok r
  | n + 1, r => do
    let (_, r) ← r.getLeb128U32
    skipLebsV1 n r

/-- The module imports loop of `read_value_v1`. -/
def skipImportsV1 : Nat → ReaderSt → AtomTableV1 → Except DeqjsError ReaderSt
  | 0, r, _ => .ok r
  | n + 1, r, atoms => do
    let (_, r) ← r.getLeb128U32
    let (_, r) ← atoms.readAtomId r
    let (_, r) ← r.getLeb128U32
    skipImportsV1 n r atoms

/-- The locals loop of `read_function_bytecode_v1`. -/
def readLocalsV1 : Nat → ReaderSt → AtomTableV1 →
    Except DeqjsError (List VarDef × ReaderSt)
  | 0, r, _ => .ok ([], r)
  | n + 1, r, atoms => do
    let (name, r) ← atoms.readAtomId r
    let (scopeLevel, r) ← r.getLeb128U32
    let (scopeNext, r) ← r.getLeb128U32
    let (flags, r) ← r.getU8
    let (rest, r) ← readLocalsV1 n r atoms
    .ok ({ name, scopeLevel, scopeNext, flags, varRefIdx := none } :: rest, r)

/-- The closure-vars loop of `read_function_bytecode_v1`. -/
def readClosureVarsV1 : Nat → ReaderSt → AtomTableV1 →
    Except DeqjsError (List ClosureVar × ReaderSt)
  | 0, r, _ => .ok ([], r)
  | n + 1, r, atoms => do
    let (name, r) ← atoms.readAtomId r
    let (varIdx, r) ← r.getLeb128U32
    let (flags, r) ← r.getU8
    let (rest, r) ← readClosureVarsV1 n r atoms
    .ok ({ name, varIdx, flags } :: rest, r)

mutual

/-- `read_value_v1`: legacy-dialect tag-dispatched recursive descent.
The fuel bounds the total recursion (see `fuelFor`); wherever this is
invoked the fuel is large enough that exhaustion is unreachable, so the
fuel-zero case never shows through. -/
def readValueV1 : Nat → ReaderSt → AtomTableV1 → Except DeqjsError (Value × ReaderSt)
  | 0, _, _ => .error .eof
  | fuel + 1, r, atoms => do
    let (tag, r) ← r.getU8
    if tag = BC_TAG_NULL then .ok (.null, r)
    else if tag = BC_TAG_UNDEFINED then .ok (.undefined, r)
    else if tag = BC_TAG_BOOL_FALSE then .ok (.bool false, r)
    else if tag = BC_TAG_BOOL_TRUE then .ok (.bool true, r)
    else if tag = BC_TAG_INT32 then do
      let (v, r) ← r.getSleb128I32
      .ok (.int32 v, r)
    else if tag = BC_TAG_FLOAT64 then do
      let (v, r) ← r.getF64
      .ok (.float64 v, r)
    else if tag = BC_TAG_STRING then do
      let (s, r) ← readQjsString r
      .ok (.string s, r)
    else if tag = BC_TAG_OBJECT then do
      let (propCount, r) ← r.getLeb128U32
      let (props, r) ← readPropsV1 fuel propCount r atoms
      .ok (.object props, r)
    else if tag = BC_TAG_ARRAY ∨ tag = BC_TAG_TEMPLATE_OBJECT_V1 then do
      let (len, r) ← r.getLeb128U32
      let (items, r) ← readItemsV1 fuel len r atoms
      if tag = BC_TAG_TEMPLATE_OBJECT_V1 then do
        let (_template, r) ← readValueV1 fuel r atoms
        .ok (.array items, r)
      else
        .ok (.array items, r)
    else if tag = BC_TAG_FUNCTION_BYTECODE_V1 then do
      let (b, r) ← readFunctionBytecodeV1 fuel r atoms
      .ok (.function b, r)
    else if tag = BC_TAG_MODULE_V1 then do
      let (name, r) ← atoms.readAtomId r
      let (reqCount, r) ← r.getLeb128U32
      let r ← skipAtomIdsV1 reqCount r atoms
      let (exportCount, r) ← r.getLeb128U32
      let r ← skipExportsV1 exportCount r atoms
      let (starCount, r) ← r.getLeb128U32
      let r ← skipLebsV1 starCount r
      let (importCount, r) ← r.getLeb128U32
      let r ← skipImportsV1 importCount r atoms
      let (funcObj, r) ← readValueV1 fuel r atoms
      .ok (.module name funcObj, r)
    else if tag = BC_TAG_TYPED_ARRAY_V1 then do
      let (kind, r) ← r.getU8
      let (len, r) ← r.getLeb128U32
      let (offset, r) ← r.getLeb128U32
      let (buffer, r) ← readValueV1 fuel r atoms
      .ok (.typedArray kind len offset buffer, r)
    else if tag = BC_TAG_ARRAY_BUFFER_V1 then do
      let (byteLength, r) ← r.getLeb128U32
      let (bytes, r) ← r.getBytes byteLength
      .ok (.arrayBuffer bytes, r)
    else if tag = BC_TAG_SHARED_ARRAY_BUFFER_V1 then do
      let (_len, r) ← r.getLeb128U32
      let (_ptr, r) ← r.getU64
      .ok (.unsupported tag, r)
    else if tag = BC_TAG_DATE_V1 then do
      let (v, r) ← readValueV1 fuel r atoms
      .ok (.date v, r)
    else if tag = BC_TAG_OBJECT_VALUE_V1 then
      readValueV1 fuel r atoms
    else if tag = BC_TAG_OBJECT_REFERENCE_V1 then do
      let (_idx, r) ← r.getLeb128U32
      .ok (.unsupported tag, r)
    else
      .error (.unsupportedTag tag)

/-- The object-property loop of `read_value_v1`. -/
def readPropsV1 : Nat → Nat → ReaderSt → AtomTableV1 →
    Except DeqjsError (List (AtomRepr × Value) × ReaderSt)
  | _, 0, r, _ => .ok ([], r)
  | 0, _ + 1, _, _ => .error .eof
  | fuel + 1, n + 1, r, atoms => do
    let (name, r) ← atoms.readAtomId r
    let (val, r) ← readValueV1 fuel r atoms
    let (rest, r) ← readPropsV1 fuel n r atoms
    .ok ((name, val) :: rest, r)

/-- The array-item loop of `read_value_v1`. -/
def readItemsV1 : Nat → Nat → ReaderSt → AtomTableV1 →
    Except DeqjsError (List Value × ReaderSt)
  | _, 0, r, _ => .ok ([], r)
  | 0, _ + 1, _, _ => .error .eof
  | fuel + 1, n + 1, r, atoms => do
    let (item, r) ← readValueV1 fuel r atoms
    let (rest, r) ← readItemsV1 fuel n r atoms
    .ok (item :: rest, r)

/-- `read_function_bytecode_v1`. -/
def readFunctionBytecodeV1 : Nat → ReaderSt → AtomTableV1 →
    Except DeqjsError (FunctionBytecode × ReaderSt)
  | 0, _, _ => .error .eof
  | fuel + 1, r, atoms => do
    let (flags, r) ← r.getU16
    let (_jsMode, r) ← r.getU8
    let (funcName, r) ← atoms.readAtomId r
    let (argCount, r) ← r.getLeb128U32
    let (varCount, r) ← r.getLeb128U32
    let (definedArgCount, r) ← r.getLeb128U32
    let (stackSize, r) ← r.getLeb128U32
    let (closureVarCount, r) ← r.getLeb128U32
    let (cpoolCount, r) ← r.getLeb128U32
    let (byteCodeLen, r) ← r.getLeb128U32
    let (localCount, r) ← r.getLeb128U32
    let (locals, r) ← readLocalsV1 localCount r atoms
    let (closureVars, r) ← readClosureVarsV1 (toU16 closureVarCount) r atoms
    let (bytecode, r) ← r.getBytes byteCodeLen
    let hasDebug := flags &&& 0x8000 ≠ 0
    let r ←
      if hasDebug then do
        let (_file, r) ← atoms.readAtomId r
        let (_line, r) ← r.getLeb128U32
        let (mapLen, r) ← r.getLeb128U32
        let (_map, r) ← r.getBytes mapLen
        pure r
      else
        pure r
    let (cpool, r) ← readItemsV1 fuel cpoolCount r atoms
    .ok (.mk funcName false (toU16 argCount) (toU16 varCount) (toU16 definedArgCount)
          (toU16 stackSize) 0 (toU16 closureVarCount) cpoolCount byteCodeLen
          locals closureVars cpool bytecode, r)


end

/-- The module requested-atoms loop of `read_value`. -/
def skipAtoms : Nat → ReaderSt → AtomTable → Except DeqjsError ReaderSt
  | 0, r, _ => .ok r
  | n + 1, r, atoms => do
    let (_, r) ← atoms.readAtom r
    skipAtoms n r atoms

/-- The module exports loop of `read_value`. -/
def skipExports : Nat → ReaderSt → AtomTable → Except DeqjsError ReaderSt
  | 0, r, _ => .ok r
  | n + 1, r, atoms => do
    let (exportType, r) ← r.getU8
    let r ←
      if exportType = 0 then do
        let (_, r) ← r.getLeb128U32
        pure r
      else do
        let (_, r) ← r.getLeb128U32
        let (_, r) ← atoms.readAtom r
        pure r
    let (_, r) ← atoms.readAtom r
    skipExports n r atoms

/-- The module star-exports loop of `read_value`. -/
def skipLebs : Nat → ReaderSt → Except DeqjsError ReaderSt
  | 0, r => .ok r
  | n + 1, r => do
    let (_, r) ← r.getLeb128U32
    skipLebs n r

/-- The module imports loop of `read_value`. -/
def skipImports : Nat → ReaderSt → AtomTable → Except DeqjsError ReaderSt
  | 0, r, _ => .ok r
  | n + 1, r, atoms => do
    let (_, r) ← r.getLeb128U32
    let (_, r) ← atoms.readAtom r
    let (_, r) ← r.getLeb128U32
    skipImports n r atoms

/-- The locals loop of `read_function_bytecode`: `scope_next` is the LEB128
value saturating-minus one, and a `var_ref_idx` follows when bit 6 of the
flags byte is set. -/
def readLocals : Nat → ReaderSt → AtomTable →
    Except DeqjsError (List VarDef × ReaderSt)
  | 0, r, _ => .ok ([], r)
  | n + 1, r, atoms => do
    let (name, r) ← atoms.readAtom r
    let (scopeLevel, r) ← r.getLeb128U32
    let (scopeNextRaw, r) ← r.getLeb128U32
    let scopeNext := scopeNextRaw - 1
    let (flags, r) ← r.getU8
    let isCaptured := flags &&& 0x40 ≠ 0
    let (varRefIdx, r) ←
      if isCaptured then do
        let (v, r) ← r.getLeb128U32
        pure (some v, r)
      else
        pure ((none : Option Nat), r)
    let (rest, r) ← readLocals n r atoms
    .ok ({ name, scopeLevel, scopeNext, flags, varRefIdx } :: rest, r)

/-- The closure-vars loop of `read_function_bytecode` (flags are a LEB128
here, unlike the legacy dialect's single byte). -/
def readClosureVars : Nat → ReaderSt → AtomTable →
    Except DeqjsError (List ClosureVar × ReaderSt)
  | 0, r, _ => .ok ([], r)
  | n + 1, r, atoms => do
    let (name, r) ← atoms.readAtom r
    let (varIdx, r) ← r.getLeb128U32
    let (flags, r) ← r.getLeb128U32
    let (rest, r) ← readClosureVars n r atoms
    .ok ({ name, varIdx, flags } :: rest, r)

mutual

/-- `read_value`: current-dialect tag-dispatched recursive descent, with
the same fuel convention as `readValueV1`. -/
def readValue : Nat → ReaderSt → AtomTable → Except DeqjsError (Value × ReaderSt)
  | 0, _, _ => .error .eof
  | fuel + 1, r, atoms => do
    let (tag, r) ← r.getU8
    if tag = BC_TAG_NULL then .ok (.null, r)
    else if tag = BC_TAG_UNDEFINED then .ok (.undefined, r)
    else if tag = BC_TAG_BOOL_FALSE then .ok (.bool false, r)
    else if tag = BC_TAG_BOOL_TRUE then .ok (.bool true, r)
    else if tag = BC_TAG_INT32 then do
      let (v, r) ← r.getSleb128I32
      .ok (.int32 v, r)
    else if tag = BC_TAG_FLOAT64 then do
      let (v, r) ← r.getF64
      .ok (.float64 v, r)
    else if tag = BC_TAG_STRING then do
      let (s, r) ← readQjsString r
      .ok (.string s, r)
    else if tag = BC_TAG_OBJECT then do
      let (propCount, r) ← r.getLeb128U32
      let (props, r) ← readProps fuel propCount r atoms
      .ok (.object props, r)
    else if tag = BC_TAG_ARRAY ∨ tag = BC_TAG_TEMPLATE_OBJECT then do
      let (len, r) ← r.getLeb128U32
      let (items, r) ← readItems fuel len r atoms
      if tag = BC_TAG_TEMPLATE_OBJECT then do
        let (_raw, r) ← readValue fuel r atoms
        .ok (.array items, r)
      else
        .ok (.array items, r)
    else if tag = BC_TAG_REGEXP then do
      let (pattern, r) ← readQjsString r
      let (bc, r) ← readQjsString r
      .ok (.regexp pattern bc, r)
    else if tag = BC_TAG_BIG_INT then do
      let (len, r) ← r.getLeb128U32
      let (bytes, r) ← r.getBytes len
      .ok (.bigInt bytes, r)
    else if tag = BC_TAG_SYMBOL then do
      let (a, r) ← atoms.readAtom r
      .ok (.symbol a, r)
    else if tag = BC_TAG_ARRAY_BUFFER then do
      let (byteLength, r) ← r.getLeb128U32
      let (_maxByteLength, r) ← r.getLeb128U32
      let (bytes, r) ← r.getBytes byteLength
      .ok (.arrayBuffer bytes, r)
    else if tag = BC_TAG_TYPED_ARRAY then do
      let (kind, r) ← r.getU8
      let (len, r) ← r.getLeb128U32
      let (offset, r) ← r.getLeb128U32
      let (buffer, r) ← readValue fuel r atoms
      .ok (.typedArray kind len offset buffer, r)
    else if tag = BC_TAG_DATE then do
      let (v, r) ← readValue fuel r atoms
      .ok (.date v, r)
    else if tag = BC_TAG_MODULE then do
      let (name, r) ← atoms.readAtom r
      let (reqCount, r) ← r.getLeb128U32
      let r ← skipAtoms reqCount r atoms
      let (exportCount, r) ← r.getLeb128U32
      let r ← skipExports exportCount r atoms
      let (starCount, r) ← r.getLeb128U32
      let r ← skipLebs starCount r
      let (importCount, r) ← r.getLeb128U32
      let r ← skipImports importCount r atoms
      let (_hasTla, r) ← r.getU8
      let (funcObj, r) ← readValue fuel r atoms
      .ok (.module name funcObj, r)
    else if tag = BC_TAG_FUNCTION_BYTECODE then do
      let (b, r) ← readFunctionBytecode fuel r atoms
      .ok (.function b, r)
    else
      if tag = BC_TAG_SHARED_ARRAY_BUFFER ∨ tag = BC_TAG_OBJECT_VALUE ∨
          tag = BC_TAG_OBJECT_REFERENCE ∨ tag = BC_TAG_MAP ∨ tag = BC_TAG_SET then
        .error (.unsupportedTag tag)
      else
        .ok (.unsupported tag, r)

/-- The object-property loop of `read_value`. -/
def readProps : Nat → Nat → ReaderSt → AtomTable →
    Except DeqjsError (List (AtomRepr × Value) × ReaderSt)
  | _, 0, r, _ => .ok ([], r)
  | 0, _ + 1, _, _ => .error .eof
  | fuel + 1, n + 1, r, atoms => do
    let (name, r) ← atoms.readAtom r
    let (val, r) ← readValue fuel r atoms
    let (rest, r) ← readProps fuel n r atoms
    .ok ((name, val) :: rest, r)

/-- The array-item loop of `read_value`. -/
def readItems : Nat → Nat → ReaderSt → AtomTable →
    Except DeqjsError (List Value × ReaderSt)
  | _, 0, r, _ => .ok ([], r)
  | 0, _ + 1, _, _ => .error .eof
  | fuel + 1, n + 1, r, atoms => do
    let (item, r) ← readValue fuel r atoms
    let (rest, r) ← readItems fuel n r atoms
    .ok (item :: rest, r)

/-- `read_function_bytecode` (current dialect). -/
def readFunctionBytecode : Nat → ReaderSt → AtomTable →
    Except DeqjsError (FunctionBytecode × ReaderSt)
  | 0, _, _ => .error .eof
  | fuel + 1, r, atoms => do
    let (_flags, r) ← r.getU16
    let (strictByte, r) ← r.getU8
    let isStrictMode := strictByte ≠ 0
    let (funcName, r) ← atoms.readAtom r
    let (argCount, r) ← r.getLeb128U32
    let (varCount, r) ← r.getLeb128U32
    let (definedArgCount, r) ← r.getLeb128U32
    let (stackSize, r) ← r.getLeb128U32
    let (varRefCount, r) ← r.getLeb128U32
    let (closureVarCount, r) ← r.getLeb128U32
    let (cpoolCount, r) ← r.getLeb128U32
    let (byteCodeLen, r) ← r.getLeb128U32
    let (localCount, r) ← r.getLeb128U32
    let (locals, r) ← readLocals localCount r atoms
    let (closureVars, r) ← readClosureVars (toU16 closureVarCount) r atoms
    let (cpool, r) ← readItems fuel cpoolCount r atoms
    let (bytecode, r) ← r.getBytes byteCodeLen
    .ok (.mk funcName isStrictMode (toU16 argCount) (toU16 varCount) (toU16 definedArgCount)
          (toU16 stackSize) (toU16 varRefCount) (toU16 closureVarCount) cpoolCount byteCodeLen
          locals closureVars cpool bytecode, r)


end

/-- Typed operand, mirroring `enum Operand`.  Signed payloads are `Int`,
unsigned ones `Nat`. -/
inductive Operand where
  | u8 (v : Nat)
  | i8 (v : Int)
  | u16 (v : Nat)
  | i16 (v : Int)
  | u32 (v : Nat)
  | i32 (v : Int)
  | u32x2 (a b : Nat)
  | label (rel : Int)
  | labelAbs (v : Nat)
  | labelU16 (a : Nat) (b : Nat)
  | const (idx : Nat)
  | atom (idx : Nat)
  | atomU8 (idx : Nat) (v : Nat)
  | atomU16 (idx : Nat) (v : Nat)
  | atomLabelU8 (idx : Nat) (rel : Nat) (v : Nat)
  | atomLabelU16 (idx : Nat) (rel : Nat) (v : Nat)
  | nPop (v : Nat)
  | nPopU16 (a b : Nat)
  deriving Repr, DecidableEq

/-- Operand-format enum of the current dialect (`tables::OpFmt`). -/
inductive OpFmt where
  | none | noneInt | noneLoc | noneArg | noneVarRef
  | u8 | i8 | loc8 | const8 | label8
  | u16 | i16 | label16
  | nPop | nPopX | nPopU16
  | loc | arg | varRef
  | u32 | u32x2 | i32 | const | label
  | atom | atomU8 | atomU16 | atomLabelU8 | atomLabelU16 | labelU16
  deriving Repr, DecidableEq

/-- Decoded instruction, mirroring `struct Instr`. -/
structure Instr where
  pc : Nat
  op : Nat
  name : String
  size : Nat
  fmt : OpFmt
  operand : Option Operand
  nPop : Nat
  nPush : Nat
  deriving Repr, DecidableEq

/-- Operand-format enum of the legacy dialect (`enum OpFmtV1`). -/
inductive OpFmtV1 where
  | none | noneInt | noneLoc | noneArg | noneVarRef
  | u8 | i8 | loc8 | const8 | label8
  | u16 | i16 | label16
  | nPop | nPopX | nPopU16
  | loc | arg | varRef
  | u32 | i32 | const | label
  | atom | atomU8 | atomU16 | atomLabelU8 | atomLabelU16 | labelU16
  deriving Repr, DecidableEq

/-- Legacy opcode descriptor, mirroring `struct OpInfoV1`. -/
structure OpInfoV1 where
  name : String
  size : Nat
  nPop : Nat
  nPush : Nat
  fmt : OpFmtV1
  deriving Repr, DecidableEq

def mkOpV1 (name : String) (size nPop nPush : Nat) (fmt : OpFmtV1) : OpInfoV1 :=
  { name, size, nPop, nPush, fmt }

/-- The hand-coded legacy opcode table (`OPCODE_INFO_V1`), indexed by the
opcode byte. -/
def OPCODE_INFO_V1 : List OpInfoV1 := [
  mkOpV1 "invalid" 1 0 0 .none,
  mkOpV1 "push_i32" 5 0 1 .i32,
  mkOpV1 "push_const" 5 0 1 .const,
  mkOpV1 "fclosure" 5 0 1 .const,
  mkOpV1 "push_atom_value" 5 0 1 .atom,
  mkOpV1 "private_symbol" 5 0 1 .atom,
  mkOpV1 "undefined" 1 0 1 .none,
  mkOpV1 "null" 1 0 1 .none,
  mkOpV1 "push_this" 1 0 1 .none,
  mkOpV1 "push_false" 1 0 1 .none,
  mkOpV1 "push_true" 1 0 1 .none,
  mkOpV1 "object" 1 0 1 .none,
  mkOpV1 "special_object" 2 0 1 .u8,
  mkOpV1 "rest" 3 0 1 .u16,
  mkOpV1 "drop" 1 1 0 .none,
  mkOpV1 "nip" 1 2 1 .none,
  mkOpV1 "nip1" 1 3 2 .none,
  mkOpV1 "dup" 1 1 2 .none,
  mkOpV1 "dup1" 1 2 3 .none,
  mkOpV1 "dup2" 1 2 4 .none,
  mkOpV1 "dup3" 1 3 6 .none,
  mkOpV1 "insert2" 1 2 3 .none,
  mkOpV1 "insert3" 1 3 4 .none,
  mkOpV1 "insert4" 1 4 5 .none,
  mkOpV1 "perm3" 1 3 3 .none,
  mkOpV1 "perm4" 1 4 4 .none,
  mkOpV1 "perm5" 1 5 5 .none,
  mkOpV1 "swap" 1 2 2 .none,
  mkOpV1 "swap2" 1 4 4 .none,
  mkOpV1 "rot3l" 1 3 3 .none,
  mkOpV1 "rot3r" 1 3 3 .none,
  mkOpV1 "rot4l" 1 4 4 .none,
  mkOpV1 "rot5l" 1 5 5 .none,
  mkOpV1 "call_constructor" 3 2 1 .nPop,
  mkOpV1 "call" 3 1 1 .nPop,
  mkOpV1 "tail_call" 3 1 0 .nPop,
  mkOpV1 "call_method" 3 2 1 .nPop,
  mkOpV1 "tail_call_method" 3 2 0 .nPop,
  mkOpV1 "array_from" 3 0 1 .nPop,
  mkOpV1 "apply" 3 3 1 .u16,
  mkOpV1 "return" 1 1 0 .none,
  mkOpV1 "return_undef" 1 0 0 .none,
  mkOpV1 "check_ctor_return" 1 1 2 .none,
  mkOpV1 "check_ctor" 1 0 0 .none,
  mkOpV1 "check_brand" 1 2 2 .none,
  mkOpV1 "add_brand" 1 2 0 .none,
  mkOpV1 "return_async" 1 1 0 .none,
  mkOpV1 "throw" 1 1 0 .none,
  mkOpV1 "throw_error" 6 0 0 .atomU8,
  mkOpV1 "eval" 5 1 1 .nPopU16,
  mkOpV1 "apply_eval" 3 2 1 .u16,
  mkOpV1 "regexp" 1 2 1 .none,
  mkOpV1 "get_super" 1 1 1 .none,
  mkOpV1 "import" 1 1 1 .none,
  mkOpV1 "check_var" 5 0 1 .atom,
  mkOpV1 "get_var_undef" 5 0 1 .atom,
  mkOpV1 "get_var" 5 0 1 .atom,
  mkOpV1 "put_var" 5 1 0 .atom,
  mkOpV1 "put_var_init" 5 1 0 .atom,
  mkOpV1 "put_var_strict" 5 2 0 .atom,
  mkOpV1 "get_ref_value" 1 2 3 .none,
  mkOpV1 "put_ref_value" 1 3 0 .none,
  mkOpV1 "define_var" 6 0 0 .atomU8,
  mkOpV1 "check_define_var" 6 0 0 .atomU8,
  mkOpV1 "define_func" 6 1 0 .atomU8,
  mkOpV1 "get_field" 5 1 1 .atom,
  mkOpV1 "get_field2" 5 1 2 .atom,
  mkOpV1 "put_field" 5 2 0 .atom,
  mkOpV1 "get_private_field" 1 2 1 .none,
  mkOpV1 "put_private_field" 1 3 0 .none,
  mkOpV1 "define_private_field" 1 3 1 .none,
  mkOpV1 "get_array_el" 1 2 1 .none,
  mkOpV1 "get_array_el2" 1 2 2 .none,
  mkOpV1 "put_array_el" 1 3 0 .none,
  mkOpV1 "get_super_value" 1 3 1 .none,
  mkOpV1 "put_super_value" 1 4 0 .none,
  mkOpV1 "define_field" 5 2 1 .atom,
  mkOpV1 "set_name" 5 1 1 .atom,
  mkOpV1 "set_name_computed" 1 2 2 .none,
  mkOpV1 "set_proto" 1 2 1 .none,
  mkOpV1 "set_home_object" 1 2 2 .none,
  mkOpV1 "define_array_el" 1 3 2 .none,
  mkOpV1 "append" 1 3 2 .none,
  mkOpV1 "copy_data_properties" 2 3 3 .u8,
  mkOpV1 "define_method" 6 2 1 .atomU8,
  mkOpV1 "define_method_computed" 2 3 1 .u8,
  mkOpV1 "define_class" 6 2 2 .atomU8,
  mkOpV1 "define_class_computed" 6 3 3 .atomU8,
  mkOpV1 "get_loc" 3 0 1 .loc,
  mkOpV1 "put_loc" 3 1 0 .loc,
  mkOpV1 "set_loc" 3 1 1 .loc,
  mkOpV1 "get_arg" 3 0 1 .arg,
  mkOpV1 "put_arg" 3 1 0 .arg,
  mkOpV1 "set_arg" 3 1 1 .arg,
  mkOpV1 "get_var_ref" 3 0 1 .varRef,
  mkOpV1 "put_var_ref" 3 1 0 .varRef,
  mkOpV1 "set_var_ref" 3 1 1 .varRef,
  mkOpV1 "set_loc_uninitialized" 3 0 0 .loc,
  mkOpV1 "get_loc_check" 3 0 1 .loc,
  mkOpV1 "put_loc_check" 3 1 0 .loc,
  mkOpV1 "put_loc_check_init" 3 1 0 .loc,
  mkOpV1 "get_var_ref_check" 3 0 1 .varRef,
  mkOpV1 "put_var_ref_check" 3 1 0 .varRef,
  mkOpV1 "put_var_ref_check_init" 3 1 0 .varRef,
  mkOpV1 "close_loc" 3 0 0 .loc,
  mkOpV1 "if_false" 5 1 0 .label,
  mkOpV1 "if_true" 5 1 0 .label,
  mkOpV1 "goto" 5 0 0 .label,
  mkOpV1 "catch" 5 0 1 .label,
  mkOpV1 "gosub" 5 0 0 .label,
  mkOpV1 "ret" 1 1 0 .none,
  mkOpV1 "to_object" 1 1 1 .none,
  mkOpV1 "to_propkey" 1 1 1 .none,
  mkOpV1 "to_propkey2" 1 2 2 .none,
  mkOpV1 "with_get_var" 10 1 0 .atomLabelU8,
  mkOpV1 "with_put_var" 10 2 1 .atomLabelU8,
  mkOpV1 "with_delete_var" 10 1 0 .atomLabelU8,
  mkOpV1 "with_make_ref" 10 1 0 .atomLabelU8,
  mkOpV1 "with_get_ref" 10 1 0 .atomLabelU8,
  mkOpV1 "with_get_ref_undef" 10 1 0 .atomLabelU8,
  mkOpV1 "make_loc_ref" 7 0 2 .atomU16,
  mkOpV1 "make_arg_ref" 7 0 2 .atomU16,
  mkOpV1 "make_var_ref_ref" 7 0 2 .atomU16,
  mkOpV1 "make_var_ref" 5 0 2 .atom,
  mkOpV1 "for_in_start" 1 1 1 .none,
  mkOpV1 "for_of_start" 1 1 3 .none,
  mkOpV1 "for_await_of_start" 1 1 3 .none,
  mkOpV1 "for_in_next" 1 1 3 .none,
  mkOpV1 "for_of_next" 2 3 5 .u8,
  mkOpV1 "iterator_check_object" 1 1 1 .none,
  mkOpV1 "iterator_get_value_done" 1 1 2 .none,
  mkOpV1 "iterator_close" 1 3 0 .none,
  mkOpV1 "iterator_close_return" 1 4 4 .none,
  mkOpV1 "iterator_next" 1 4 4 .none,
  mkOpV1 "iterator_call" 2 4 5 .u8,
  mkOpV1 "initial_yield" 1 0 0 .none,
  mkOpV1 "yield" 1 1 2 .none,
  mkOpV1 "yield_star" 1 1 2 .none,
  mkOpV1 "async_yield_star" 1 1 2 .none,
  mkOpV1 "await" 1 1 1 .none,
  mkOpV1 "neg" 1 1 1 .none,
  mkOpV1 "plus" 1 1 1 .none,
  mkOpV1 "dec" 1 1 1 .none,
  mkOpV1 "inc" 1 1 1 .none,
  mkOpV1 "post_dec" 1 1 2 .none,
  mkOpV1 "post_inc" 1 1 2 .none,
  mkOpV1 "dec_loc" 2 0 0 .loc8,
  mkOpV1 "inc_loc" 2 0 0 .loc8,
  mkOpV1 "add_loc" 2 1 0 .loc8,
  mkOpV1 "not" 1 1 1 .none,
  mkOpV1 "lnot" 1 1 1 .none,
  mkOpV1 "typeof" 1 1 1 .none,
  mkOpV1 "delete" 1 2 1 .none,
  mkOpV1 "delete_var" 5 0 1 .atom,
  mkOpV1 "mul" 1 2 1 .none,
  mkOpV1 "div" 1 2 1 .none,
  mkOpV1 "mod" 1 2 1 .none,
  mkOpV1 "add" 1 2 1 .none,
  mkOpV1 "sub" 1 2 1 .none,
  mkOpV1 "pow" 1 2 1 .none,
  mkOpV1 "shl" 1 2 1 .none,
  mkOpV1 "sar" 1 2 1 .none,
  mkOpV1 "shr" 1 2 1 .none,
  mkOpV1 "lt" 1 2 1 .none,
  mkOpV1 "lte" 1 2 1 .none,
  mkOpV1 "gt" 1 2 1 .none,
  mkOpV1 "gte" 1 2 1 .none,
  mkOpV1 "instanceof" 1 2 1 .none,
  mkOpV1 "in" 1 2 1 .none,
  mkOpV1 "eq" 1 2 1 .none,
  mkOpV1 "neq" 1 2 1 .none,
  mkOpV1 "strict_eq" 1 2 1 .none,
  mkOpV1 "strict_neq" 1 2 1 .none,
  mkOpV1 "and" 1 2 1 .none,
  mkOpV1 "xor" 1 2 1 .none,
  mkOpV1 "or" 1 2 1 .none,
  mkOpV1 "is_undefined_or_null" 1 1 1 .none,
  mkOpV1 "nop" 1 0 0 .none,
  mkOpV1 "push_minus1" 1 0 1 .noneInt,
  mkOpV1 "push_0" 1 0 1 .noneInt,
  mkOpV1 "push_1" 1 0 1 .noneInt,
  mkOpV1 "push_2" 1 0 1 .noneInt,
  mkOpV1 "push_3" 1 0 1 .noneInt,
  mkOpV1 "push_4" 1 0 1 .noneInt,
  mkOpV1 "push_5" 1 0 1 .noneInt,
  mkOpV1 "push_6" 1 0 1 .noneInt,
  mkOpV1 "push_7" 1 0 1 .noneInt,
  mkOpV1 "push_i8" 2 0 1 .i8,
  mkOpV1 "push_i16" 3 0 1 .i16,
  mkOpV1 "push_const8" 2 0 1 .const8,
  mkOpV1 "fclosure8" 2 0 1 .const8,
  mkOpV1 "push_empty_string" 1 0 1 .none,
  mkOpV1 "get_loc8" 2 0 1 .loc8,
  mkOpV1 "put_loc8" 2 1 0 .loc8,
  mkOpV1 "set_loc8" 2 1 1 .loc8,
  mkOpV1 "get_loc0" 1 0 1 .noneLoc,
  mkOpV1 "get_loc1" 1 0 1 .noneLoc,
  mkOpV1 "get_loc2" 1 0 1 .noneLoc,
  mkOpV1 "get_loc3" 1 0 1 .noneLoc,
  mkOpV1 "put_loc0" 1 1 0 .noneLoc,
  mkOpV1 "put_loc1" 1 1 0 .noneLoc,
  mkOpV1 "put_loc2" 1 1 0 .noneLoc,
  mkOpV1 "put_loc3" 1 1 0 .noneLoc,
  mkOpV1 "set_loc0" 1 1 1 .noneLoc,
  mkOpV1 "set_loc1" 1 1 1 .noneLoc,
  mkOpV1 "set_loc2" 1 1 1 .noneLoc,
  mkOpV1 "set_loc3" 1 1 1 .noneLoc,
  mkOpV1 "get_arg0" 1 0 1 .noneArg,
  mkOpV1 "get_arg1" 1 0 1 .noneArg,
  mkOpV1 "get_arg2" 1 0 1 .noneArg,
  mkOpV1 "get_arg3" 1 0 1 .noneArg,
  mkOpV1 "put_arg0" 1 1 0 .noneArg,
  mkOpV1 "put_arg1" 1 1 0 .noneArg,
  mkOpV1 "put_arg2" 1 1 0 .noneArg,
  mkOpV1 "put_arg3" 1 1 0 .noneArg,
  mkOpV1 "set_arg0" 1 1 1 .noneArg,
  mkOpV1 "set_arg1" 1 1 1 .noneArg,
  mkOpV1 "set_arg2" 1 1 1 .noneArg,
  mkOpV1 "set_arg3" 1 1 1 .noneArg,
  mkOpV1 "get_var_ref0" 1 0 1 .noneVarRef,
  mkOpV1 "get_var_ref1" 1 0 1 .noneVarRef,
  mkOpV1 "get_var_ref2" 1 0 1 .noneVarRef,
  mkOpV1 "get_var_ref3" 1 0 1 .noneVarRef,
  mkOpV1 "put_var_ref0" 1 1 0 .noneVarRef,
  mkOpV1 "put_var_ref1" 1 1 0 .noneVarRef,
  mkOpV1 "put_var_ref2" 1 1 0 .noneVarRef,
  mkOpV1 "put_var_ref3" 1 1 0 .noneVarRef,
  mkOpV1 "set_var_ref0" 1 1 1 .noneVarRef,
  mkOpV1 "set_var_ref1" 1 1 1 .noneVarRef,
  mkOpV1 "set_var_ref2" 1 1 1 .noneVarRef,
  mkOpV1 "set_var_ref3" 1 1 1 .noneVarRef,
  mkOpV1 "get_length" 1 1 1 .none,
  mkOpV1 "if_false8" 2 1 0 .label8,
  mkOpV1 "if_true8" 2 1 0 .label8,
  mkOpV1 "goto8" 2 0 0 .label8,
  mkOpV1 "goto16" 3 0 0 .label16,
  mkOpV1 "call0" 1 1 1 .nPopX,
  mkOpV1 "call1" 1 1 1 .nPopX,
  mkOpV1 "call2" 1 1 1 .nPopX,
  mkOpV1 "call3" 1 1 1 .nPopX,
  mkOpV1 "is_undefined" 1 1 1 .none,
  mkOpV1 "is_null" 1 1 1 .none,
  mkOpV1 "typeof_is_undefined" 1 1 1 .none,
  mkOpV1 "typeof_is_function" 1 1 1 .none]

/-- `opcode_info_v1`: plain table lookup by the opcode byte. -/
def opcodeInfoV1 (op : Nat) : Option OpInfoV1 :=
  OPCODE_INFO_V1.get? op

/-- `v1_fmt_to_current`. -/
def v1FmtToCurrent : OpFmtV1 → OpFmt
  | .none => .none
  | .noneInt => .noneInt
  | .noneLoc => .noneLoc
  | .noneArg => .noneArg
  | .noneVarRef => .noneVarRef
  | .u8 => .u8
  | .i8 => .i8
  | .loc8 => .loc8
  | .const8 => .const8
  | .label8 => .label8
  | .u16 => .u16
  | .i16 => .i16
  | .label16 => .label16
  | .nPop => .nPop
  | .nPopX => .nPopX
  | .nPopU16 => .nPopU16
  | .loc => .loc
  | .arg => .arg
  | .varRef => .varRef
  | .u32 => .u32
  | .i32 => .i32
  | .const => .const
  | .label => .label
  | .atom => .atom
  | .atomU8 => .atomU8
  | .atomU16 => .atomU16
  | .atomLabelU8 => .atomLabelU8
  | .atomLabelU16 => .atomLabelU16
  | .labelU16 => .labelU16

/-- `as i8` view of a byte. -/
def toI8 (b : Nat) : Int :=
  if b % 256 < 128 then ((b % 256 : Nat) : Int) else ((b % 256 : Nat) : Int) - 256

/-- `as i16` view of a 16-bit value. -/
def toI16 (v : Nat) : Int :=
  if v % 65536 < 32768 then ((v % 65536 : Nat) : Int) else ((v % 65536 : Nat) : Int) - 65536

/-- Little-endian `u16` from the first two argument bytes. -/
def argU16 (args : List Nat) : Nat :=
  leVal (args.take 2)

/-- Little-endian `u32` from the first four argument bytes. -/
def argU32 (args : List Nat) : Nat :=
  leVal (args.take 4)

/-- Operand extraction of `decode_instructions_v1`, by format. -/
def operandOfV1 (fmt : OpFmtV1) (args : List Nat) : Option Operand :=
  match fmt with
  | .none | .noneInt | .noneLoc | .noneArg | .noneVarRef | .nPopX => Option.none
  | .u8 => some (.u8 (args.getD 0 0))
  | .i8 => some (.i8 (toI8 (args.getD 0 0)))
  | .u16 | .loc | .arg | .varRef => some (.u16 (argU16 args))
  | .nPop => some (.nPop (argU16 args))
  | .nPopU16 => some (.nPopU16 (argU16 args) (argU16 (args.drop 2)))
  | .i16 => some (.i16 (toI16 (argU16 args)))
  | .label8 => some (.label (toI8 (args.getD 0 0)))
  | .label16 => some (.label (toI16 (argU16 args)))
  | .i32 => some (.i32 (toInt32 (argU32 args)))
  | .u32 => some (.u32 (argU32 args))
  | .label => some (.labelAbs (argU32 args))
  | .labelU16 => some (.labelU16 (argU32 args) (argU16 (args.drop 4)))
  | .const8 => some (.const (args.getD 0 0))
  | .const => some (.const (argU32 args))
  | .atom => some (.atom (argU32 args))
  | .atomU8 => some (.atomU8 (argU32 args) (args.getD 4 0))
  | .atomU16 => some (.atomU16 (argU32 args) (argU16 (args.drop 4)))
  | .atomLabelU8 => some (.atomLabelU8 (argU32 args) (argU32 (args.drop 4)) (args.getD 8 0))
  | .atomLabelU16 => some (.atomLabelU16 (argU32 args) (argU32 (args.drop 4)) (argU16 (args.drop 8)))
  | .loc8 => some (.u8 (args.getD 0 0))

/-- The decode loop of `decode_instructions_v1`; each iteration consumes
`size ≥ 1` bytes, so fuel `bytecode.length + 1` runs it to completion. -/
def decodeLoopV1 (bytecode : List Nat) : Nat → Nat → Except DeqjsError (List Instr)
  | 0, _ => .ok []
  | fuel + 1, pc =>
    if pc < bytecode.length then do
      let op := bytecode.getD pc 0
      match opcodeInfoV1 op with
      | Option.none => .error (.invalidOpcode op)
      | some info =>
        let size := info.size
        if bytecode.length - pc < size then
          .error (.truncatedOpcode pc size (bytecode.length - pc))
        else do
          let args := (bytecode.drop (pc + 1)).take (size - 1)
          let operand := operandOfV1 info.fmt args
          let ins : Instr :=
            { pc, op, name := info.name, size := info.size, fmt := v1FmtToCurrent info.fmt,
              operand, nPop := info.nPop, nPush := info.nPush }
          let rest ← decodeLoopV1 bytecode fuel (pc + size)
          .ok (ins :: rest)
    else
      .ok []

/-- `decode_instructions_v1`. -/
def decodeInstructionsV1 (b : FunctionBytecode) : Except DeqjsError (List Instr) :=
  decodeLoopV1 b.bytecode (b.bytecode.length + 1) 0

/-- Modelled from the spec: the current-dialect opcode descriptor table
(`tables::OPCODE_INFO`, with `OP_TEMP_START`/`OP_TEMP_COUNT`) is emitted
by the build script from the engine's opcode header and is not part of the
sources under `src/`.  It is modelled as empty, so the current-dialect
decoder below rejects every opcode; no settled claim evaluates it (the
claims exercise the legacy table, which is in the sources, or paths that
never reach instruction decoding). -/
def opcodeInfoCurrent (_op : Nat) : Option OpInfoV1 :=
  Option.none

/-- `opcode_stack_effect` (current-table lookup; see `opcodeInfoCurrent`). -/
def opcodeStackEffect (op : Nat) : Option (Nat × Nat) :=
  (opcodeInfoCurrent op).map fun i => (i.nPop, i.nPush)

/-- `decode_instructions` (current dialect), over the modelled table. -/
def decodeLoopCur (bytecode : List Nat) : Nat → Nat → Except DeqjsError (List Instr)
  | 0, _ => .ok []
  | fuel + 1, pc =>
    if pc < bytecode.length then do
      let op := bytecode.getD pc 0
      match opcodeInfoCurrent op with
      | Option.none => .error (.invalidOpcode op)
      | some info =>
        let size := info.size
        if bytecode.length - pc < size then
          .error (.truncatedOpcode pc size (bytecode.length - pc))
        else do
          let args := (bytecode.drop (pc + 1)).take (size - 1)
          let operand := operandOfV1 info.fmt args
          let ins : Instr :=
            { pc, op, name := info.name, size := info.size, fmt := v1FmtToCurrent info.fmt,
              operand, nPop := info.nPop, nPush := info.nPush }
          let rest ← decodeLoopCur bytecode fuel (pc + size)
          .ok (ins :: rest)
    else
      .ok []

/-- `decode_instructions` entry point (current dialect). -/
def decodeInstructions (b : FunctionBytecode) : Except DeqjsError (List Instr) :=
  decodeLoopCur b.bytecode (b.bytecode.length + 1) 0

/-- `label_target`: the branch-target computation.  `Label`-relative
targets use signed arithmetic and are dropped when negative; `LabelAbs`,
atom-label and `LabelU16` forms use `u32` checked addition (the base is
the `pc + 1` resp. `pc + 5` cursor truncated to `u32`, as the Rust `as
u32` casts do). -/
def labelTarget (i : Instr) : Option Nat :=
  match i.operand with
  | some (.label rel) =>
    let t : Int := ((i.pc + 1 : Nat) : Int) + rel
    if t < 0 then Option.none else some t.toNat
  | some (.labelAbs rel) =>
    let base := (i.pc + 1) % 2 ^ 32
    if base + rel < 2 ^ 32 then some (base + rel) else Option.none
  | some (.atomLabelU8 _ rel _) | some (.atomLabelU16 _ rel _) =>
    let base := (i.pc + 5) % 2 ^ 32
    if base + rel < 2 ^ 32 then some (base + rel) else Option.none
  | some (.labelU16 rel _) =>
    let base := (i.pc + 1) % 2 ^ 32
    if base + rel < 2 ^ 32 then some (base + rel) else Option.none
  | _ => Option.none

/-- Basic block, mirroring `struct BasicBlock`. -/
structure BasicBlock where
  startPc : Nat
  instrs : List Instr
  succs : List Nat
  deriving Repr, DecidableEq

/-- Insertion into a sorted duplicate-free list: the model of
`BTreeSet::insert` for the ordered leader set. -/
def insertSU (x : Nat) : List Nat → List Nat
  | [] => [x]
  | y :: ys =>
    if x < y then x :: y :: ys
    else if x = y then y :: ys
    else y :: insertSU x ys

/-- The leader-collection phase of `build_cfg`: first pc, every branch
target, the pc after every branch, and the pc after every
return/return_undef/throw. -/
def collectLeaders (instrs : List Instr) : List Nat :=
  let base : List Nat :=
    match instrs.head? with
    | some first => [first.pc]
    | Option.none => []
  let step (acc : List Nat) (p : Instr × Option Instr) : List Nat :=
    let (ins, next) := p
    let acc :=
      match labelTarget ins with
      | some t =>
        let acc := insertSU t acc
        match next with
        | some nx => insertSU nx.pc acc
        | Option.none => acc
      | Option.none => acc
    if ins.name = "return" ∨ ins.name = "return_undef" ∨ ins.name = "throw" then
      match next with
      | some nx => insertSU nx.pc acc
      | Option.none => acc
    else acc
  (instrs.zip (instrs.tail.map some ++ [Option.none])).foldl step
    (base.foldl (fun a x => insertSU x a) [])

/-- Update the `i`-th bucket of a list of buckets. -/
def listSet (l : List (List Instr)) (i : Nat) (x : Instr) : List (List Instr) :=
  (l.zip (List.range l.length)).map fun (b, j) => if j = i then b ++ [x] else b

/-- The instruction-to-block assignment loop of `build_cfg`.  Faithful to
the Rust loop: the current block switches only when the instruction's pc
equals the *next* pending leader (leaders that match no instruction pc
stall the pointer, exactly as in the source). -/
def assignLoop (leaderList : List Nat) : List Instr → Nat → Nat →
    List (List Instr) → List (List Instr)
  | [], _, _, buckets => buckets
  | ins :: rest, cur, nli, buckets =>
    if leaderList.get? nli = some ins.pc then
      assignLoop leaderList rest nli (nli + 1) (listSet buckets nli ins)
    else
      assignLoop leaderList rest cur nli (listSet buckets cur ins)

/-- The successor computation of `build_cfg` for the block at index `bi`. -/
def blockSuccs (leaderList : List Nat) (buckets : List (List Instr)) (bi : Nat) : List Nat :=
  match (buckets.getD bi []).getLast? with
  | Option.none => []
  | some last =>
    if last.name = "goto" ∨ last.name = "goto8" ∨ last.name = "goto16" then
      match labelTarget last with
      | some t => if leaderList.contains t then [t] else []
      | Option.none => []
    else if last.name = "if_false" ∨ last.name = "if_true" ∨
        last.name = "if_false8" ∨ last.name = "if_true8" then
      let tpart :=
        match labelTarget last with
        | some t => if leaderList.contains t then [t] else []
        | Option.none => []
      let fpart :=
        match leaderList.get? (bi + 1) with
        | some nx => [nx]
        | Option.none => []
      tpart ++ fpart
    else if last.name = "return" ∨ last.name = "return_undef" ∨ last.name = "throw" then
      []
    else
      match leaderList.get? (bi + 1) with
      | some nx => [nx]
      | Option.none => []

/-- `build_cfg`. -/
def buildCfg (instrs : List Instr) : List BasicBlock :=
  let leaderList := collectLeaders instrs
  let buckets := assignLoop leaderList instrs 0 1 (leaderList.map fun _ => [])
  (leaderList.zip (List.range leaderList.length)).map fun (pc, bi) =>
    { startPc := pc, instrs := buckets.getD bi [], succs := blockSuccs leaderList buckets bi }

/-- Statement of the pseudo emitter, mirroring `enum Stmt`. -/
inductive Stmt where
  | expr (e : String)
  | assign (lhs rhs : String)
  | ret (v : Option String)
  | condGoto (cond : String) (ifFalse : Bool) (target : Nat)
  | ifElse (cond : String) (thenStmts : List Stmt) (elseStmts : List Stmt)
  | whileLoop (cond : String) (body : List Stmt)
  | goto (target : Nat)
  | label (pc : Nat)

/-- Is the statement `Goto(t)` for the given `t`? -/
def Stmt.isGotoTo (t : Nat) : Stmt → Bool
  | .goto x => x = t
  | _ => false

/-- Is the statement any `Goto`? -/
def Stmt.isGoto : Stmt → Bool
  | .goto _ => true
  | _ => false

/-- Is the statement `Label(pc)` for the given `pc`? -/
def Stmt.isLabelEq (pc : Nat) : Stmt → Bool
  | .label x => x = pc
  | _ => false

/-- Is the statement any `Label`? -/
def Stmt.isLabel : Stmt → Bool
  | .label _ => true
  | _ => false

/-- The body scan of `try_structure_while`: starting after the header,
the body is everything up to the first `Goto(loop_pc)`; the pattern
completes when that `Goto` is immediately followed by `Label(end_pc)`.
Returns the continuation after the `Label(end_pc)` on success. -/
def whileSplit (loopPc endPc : Nat) (rest : List Stmt) : Option (List Stmt) :=
  match rest.dropWhile (fun s => ¬ s.isGotoTo loopPc) with
  | .goto t :: .label pc2 :: tail =>
    if t = loopPc ∧ pc2 = endPc then some tail else Option.none
  | _ => Option.none

/-- The scan of `try_structure_while`, on the suffix starting at the
current index; the fuel dominates the number of loop iterations, which is
at most the list length since every iteration consumes at least one
statement. -/
def tryWhileGo : Nat → List Stmt → List Stmt
  | 0, l => l
  | _ + 1, [] => []
  | fuel + 1, s0 :: tail0 =>
    match s0, tail0 with
    | .label loopPc, .condGoto cond ifFalse endPc :: rest =>
      if ifFalse then
        match whileSplit loopPc endPc rest with
        | some tail =>
          .whileLoop cond (rest.takeWhile fun s => ¬ s.isGotoTo loopPc) ::
            tryWhileGo fuel tail
        | Option.none => s0 :: tryWhileGo fuel tail0
      else
        s0 :: tryWhileGo fuel tail0
    | _, _ => s0 :: tryWhileGo fuel tail0

/-- `try_structure_while`. -/
def tryStructureWhile (stmts : List Stmt) : List Stmt :=
  tryWhileGo stmts.length stmts

/-- The else-branch scan of `try_structure_if_else`: the else statements
run up to `Label(end_pc)`; on success returns them with the continuation
after that label. -/
def ifElseTail (endPc : Nat) (tail2 : List Stmt) : Option (List Stmt × List Stmt) :=
  match tail2.dropWhile (fun s => ¬ s.isLabelEq endPc) with
  | .label pc2 :: tail3 =>
    if pc2 = endPc then
      some (tail2.takeWhile (fun s => ¬ s.isLabelEq endPc), tail3)
    else Option.none
  | _ => Option.none

/-- The then/else scan of `try_structure_if_else`: the then statements run
up to the first `Goto` or `Label(else_pc)`; the pattern requires
`Goto(end_pc); Label(else_pc)` there, then an else branch per
`ifElseTail`.  Returns (then, else, continuation) on success. -/
def ifElseSplit (elsePc : Nat) (rest : List Stmt) :
    Option (List Stmt × List Stmt × List Stmt) :=
  match rest.dropWhile (fun s => ¬ s.isGoto ∧ ¬ s.isLabelEq elsePc) with
  | .goto endPc :: .label pc :: tail2 =>
    if pc = elsePc then
      match ifElseTail endPc tail2 with
      | some (elseStmts, tail3) =>
        some (rest.takeWhile (fun s => ¬ s.isGoto ∧ ¬ s.isLabelEq elsePc),
          elseStmts, tail3)
      | Option.none => Option.none
    else Option.none
  | _ => Option.none

/-- The scan of `try_structure_if_else`, on the suffix starting at the
current index; same fuel convention as `tryWhileGo`. -/
def tryIfElseGo : Nat → List Stmt → List Stmt
  | 0, l => l
  | _ + 1, [] => []
  | fuel + 1, s0 :: tail0 =>
    match s0, tail0 with
    | .condGoto cond ifFalse elsePc, .goto _x :: rest =>
      if ifFalse then
        match ifElseSplit elsePc rest with
        | some (thenStmts, elseStmts, tail3) =>
          .ifElse cond thenStmts elseStmts :: tryIfElseGo fuel tail3
        | Option.none => s0 :: tryIfElseGo fuel tail0
      else
        s0 :: tryIfElseGo fuel tail0
    | _, _ => s0 :: tryIfElseGo fuel tail0

/-- `try_structure_if_else`. -/
def tryStructureIfElse (stmts : List Stmt) : List Stmt :=
  tryIfElseGo stmts.length stmts

/-- First pass of `optimize_stmts`: `Goto(T); Label(T); Return(v)` becomes
`Return(v)`. -/
def optimizePass1 : Nat → List Stmt → List Stmt
  | 0, l => l
  | _ + 1, [] => []
  | fuel + 1, s0 :: tail0 =>
    match s0, tail0 with
    | .goto t, .label lpc :: .ret v :: tail =>
      if lpc = t then .ret v :: optimizePass1 fuel tail
      else s0 :: optimizePass1 fuel tail0
    | _, _ => s0 :: optimizePass1 fuel tail0

/-- Second pass of `optimize_stmts`: adjacent duplicate labels collapse. -/
def optimizePass2 : Nat → List Stmt → List Stmt
  | 0, l => l
  | _ + 1, [] => []
  | fuel + 1, s0 :: tail0 =>
    match s0, tail0 with
    | .label a, .label b :: _ =>
      if a = b then optimizePass2 fuel tail0
      else s0 :: optimizePass2 fuel tail0
    | _, _ => s0 :: optimizePass2 fuel tail0

/-- `optimize_stmts`. -/
def optimizeStmts (stmts : List Stmt) : List Stmt :=
  let out := optimizePass1 stmts.length stmts
  optimizePass2 out.length out

/-- `stmts_to_string`, with a fuel that is decremented on every visited
statement and every descent into an `IfElse`/`While` body.  The structural
passes never duplicate statements, so the total number of nodes reachable
from a statement list is bounded by the flat length of the emitter's
pre-pass list; the fuel used by `pseudoDecompileFromInstrs` exceeds that
bound, so the fuel-zero case is unreachable there. -/
def stmtsToString : Nat → List Stmt → Nat → String
  | 0, _, _ => ""
  | _ + 1, [], _ => ""
  | fuel + 1, s :: rest, indent =>
    let pad := String.mk (List.replicate indent ' ')
    let cur :=
      match s with
      | .expr e => pad ++ e ++ ";\n"
      | .assign lhs rhs => pad ++ lhs ++ " = " ++ rhs ++ ";\n"
      | .ret (some v) => pad ++ "return " ++ v ++ ";\n"
      | .ret Option.none => pad ++ "return;\n"
      | .condGoto cond ifFalse target =>
        if ifFalse then pad ++ "if (!" ++ cond ++ ") goto L" ++ toString target ++ ";\n"
        else pad ++ "if (" ++ cond ++ ") goto L" ++ toString target ++ ";\n"
      | .goto t => pad ++ "goto L" ++ toString t ++ ";\n"
      | .label pc => pad ++ "L" ++ toString pc ++ ":\n"
      | .ifElse cond thenStmts elseStmts =>
        let head := pad ++ "if (" ++ cond ++ ") \x7b\n" ++ stmtsToString fuel thenStmts (indent + 2)
        if elseStmts.isEmpty then
          head ++ pad ++ "\x7d\n"
        else
          head ++ pad ++ "\x7d else \x7b\n" ++ stmtsToString fuel elseStmts (indent + 2) ++
            pad ++ "\x7d\n"
      | .whileLoop cond body =>
        pad ++ "while (" ++ cond ++ ") \x7b\n" ++ stmtsToString fuel body (indent + 2) ++
          pad ++ "\x7d\n"
    cur ++ stmtsToString fuel rest indent

/-- `sanitize_ident`. -/
def sanitizeIdent (s : String) : String :=
  if s.isEmpty then "_"
  else
    let chars := s.toList
    let out := (chars.zip (List.range chars.length)).map fun (ch, i) =>
      let ok :=
        if i = 0 then ch = '_' ∨ ch = '$' ∨ ch.isAlpha
        else ch = '_' ∨ ch = '$' ∨ ch.isAlphanum
      if ok then ch else '_'
    if out.isEmpty then "_" else String.mk out

instance : Inhabited VarDef :=
  ⟨{ name := .null, scopeLevel := 0, scopeNext := 0, flags := 0, varRefIdx := Option.none }⟩

/-- `arg_name`. -/
def argName (b : FunctionBytecode) (idx : Nat) : String :=
  if idx < b.locals.length then atomToString (b.locals.getD idx Inhabited.default).name
  else "arg" ++ toString idx

/-- `loc_name`. -/
def locName (_b : FunctionBytecode) (idx : Nat) : String :=
  "loc" ++ toString idx

instance : Inhabited ClosureVar :=
  ⟨{ name := .null, varIdx := 0, flags := 0 }⟩

/-- `var_ref_name`. -/
def varRefName (b : FunctionBytecode) (idx : Nat) : String :=
  if idx < b.closureVars.length then
    let a := (b.closureVars.getD idx Inhabited.default).name
    let raw : Option String :=
      match a with
      | .null => Option.none
      | .string s => some s
      | _ => some (atomToString a)
    match raw with
    | some raw =>
      let s := sanitizeIdent raw
      if s ≠ "_" then s else "var_ref" ++ toString idx
    | Option.none => "var_ref" ++ toString idx
  else "var_ref" ++ toString idx

/-- All-digit check used by the `u32` parse of `display_func_name`
(`str::parse::<u32>` succeeds exactly on nonempty digit strings whose
value fits in 32 bits). -/
def parseU32 (s : String) : Option Nat :=
  match parseNatDigits s with
  | some n => if n < 2 ^ 32 then some n else Option.none
  | Option.none => Option.none

/-- `display_func_name`. -/
def displayFuncName (options : DecompileOptions) (b : FunctionBytecode) (idx : Nat) : String :=
  if options.deobfuscate ∧ b.funcName = .null then
    "closure_" ++ toString idx
  else
    let name := atomToString b.funcName
    if strStarts name "<atom:" ∧ strEnds name ">" then
      let inner := strDropRightChars (strDropChars name 6) 1
      match parseU32 inner with
      | some num => "atom_" ++ toString num
      | Option.none => name
    else name

/-- `closure_name`. -/
def closureName (deobfuscate : Bool) (b : FunctionBytecode) (idx : Nat) : String :=
  match b.cpool.get? idx with
  | some (.function closure) =>
    displayFuncName
      { mode := .pseudo, version := .legacy, deobfuscate, optimize := false } closure idx
  | _ => "<fclosure" ++ toString idx ++ ">"

/-- `stack.pop().unwrap_or(default)` on the symbolic stack (head = top). -/
def popOr (d : String) : List String → String × List String
  | [] => (d, [])
  | x :: rest => (x, rest)

/-- Substring containment on strings (Rust `str::contains`). -/
def strContainsGo : List Char → List Char → Bool
  | _, [] => false
  | needle, c :: rest => needle.isPrefixOf (c :: rest) || strContainsGo needle rest

def strContains (hay needle : String) : Bool :=
  needle.toList.isPrefixOf hay.toList || strContainsGo needle.toList hay.toList

/-- `str::parse::<u16>`: nonempty digit strings with value below 2^16. -/
def parseU16 (s : String) : Option Nat :=
  match parseNatDigits s with
  | some n => if n < 2 ^ 16 then some n else Option.none
  | Option.none => Option.none

/-- All-ASCII-digit check (`chars().all(is_ascii_digit)`, vacuously true
on the empty string, as in Rust). -/
def allDigits (s : String) : Bool :=
  s.toList.all fun c => c.isDigit

/-- The argument-popping loop of the call family: pops `argc` entries
(`<arg>` when the stack underflows), returning them in pop order. -/
def popArgsN : Nat → List String → List String × List String
  | 0, st => ([], st)
  | k + 1, st =>
    let (a, st) := popOr "<arg>" st
    let (rest, st) := popArgsN k st
    (a :: rest, st)

/-- The per-instruction symbolic execution step of
`pseudo_decompile_from_instrs`: one arm per mnemonic family, in source
order.  State is the symbolic operand stack (head = top) and the
accumulated statement list; atom-resolution failures of the `?`-arms
propagate as errors. -/
def execInstr (b : FunctionBytecode) (atoms : AtomTable) (deobfuscate : Bool)
    (ins : Instr) (stack : List String) (stmts : List Stmt) :
    Except DeqjsError (List String × List Stmt) :=
  let n := ins.name
  if n = "push_i8" then
    match ins.operand with
    | some (.i8 v) => .ok (toString v :: stack, stmts)
    | _ => .ok (stack, stmts)
  else if n = "push_i16" then
    match ins.operand with
    | some (.i16 v) => .ok (toString v :: stack, stmts)
    | _ => .ok (stack, stmts)
  else if n = "push_i32" then
    match ins.operand with
    | some (.i32 v) => .ok (toString v :: stack, stmts)
    | _ => .ok (stack, stmts)
  else if n = "push_u8" then
    match ins.operand with
    | some (.u8 v) => .ok (toString v :: stack, stmts)
    | _ => .ok (stack, stmts)
  else if n = "push_u16" then
    match ins.operand with
    | some (.u16 v) => .ok (toString v :: stack, stmts)
    | _ => .ok (stack, stmts)
  else if n = "push_u32" then
    match ins.operand with
    | some (.u32 v) => .ok (toString v :: stack, stmts)
    | _ => .ok (stack, stmts)
  else if n = "push_minus1" ∨ (strStarts n "push_" ∧ allDigits (strDropChars n 5)) then
    let v : Int := if n = "push_minus1" then -1 else ((parseNatDigits (strDropChars n 5)).getD 0 : Nat)
    .ok (toString v :: stack, stmts)
  else if n = "push_true" then .ok ("true" :: stack, stmts)
  else if n = "push_false" then .ok ("false" :: stack, stmts)
  else if n = "push_this" then .ok ("this" :: stack, stmts)
  else if n = "push_empty_string" then .ok ("\"\"" :: stack, stmts)
  else if n = "undefined" then .ok ("undefined" :: stack, stmts)
  else if n = "null" then .ok ("null" :: stack, stmts)
  else if n = "push_const" ∨ n = "push_const8" then
    match ins.operand with
    | some (.const idx) =>
      let expr :=
        if idx < b.cpool.length then valueToString (b.cpool.getD idx .null)
        else "<const:" ++ toString idx ++ ">"
      .ok (expr :: stack, stmts)
    | _ => .ok (stack, stmts)
  else if n = "push_atom_value" then
    match ins.operand with
    | some (.atom idx) => do
      let a ← atoms.resolveIdx idx
      match a with
      | .string s => .ok (("\"" ++ s ++ "\"") :: stack, stmts)
      | _ => .ok (atomToString a :: stack, stmts)
    | _ => .ok (stack, stmts)
  else if n = "fclosure" ∨ n = "fclosure8" then
    match ins.operand with
    | some (.const idx) => .ok (closureName deobfuscate b (toU16 idx) :: stack, stmts)
    | _ => .ok (stack, stmts)
  else if n = "get_loc0_loc1" then
    .ok (locName b 1 :: locName b 0 :: stack, stmts)
  else if n = "get_arg" then
    match ins.operand with
    | some (.u16 idx) => .ok (argName b idx :: stack, stmts)
    | _ => .ok (stack, stmts)
  else if n = "get_loc" then
    match ins.operand with
    | some (.u16 idx) => .ok (locName b idx :: stack, stmts)
    | _ => .ok (stack, stmts)
  else if n = "get_loc_check" then
    match ins.operand with
    | some (.u16 idx) => .ok (locName b idx :: stack, stmts)
    | _ => .ok (stack, stmts)
  else if strStarts n "get_arg" ∧ n ≠ "get_arg" ∧ allDigits (strDropChars n 7) then
    match parseU16 (strDropChars n 7) with
    | some idx => .ok (argName b idx :: stack, stmts)
    | Option.none => .ok (("<" ++ n ++ ">") :: stack, stmts)
  else if strStarts n "get_loc" ∧ n ≠ "get_loc" ∧ n ≠ "get_loc0_loc1" ∧
      allDigits (strDropChars n 7) then
    match parseU16 (strDropChars n 7) with
    | some idx => .ok (locName b idx :: stack, stmts)
    | Option.none => .ok (("<" ++ n ++ ">") :: stack, stmts)
  else if n = "get_var_ref" ∨ n = "get_var_ref_check" then
    match ins.operand with
    | some (.u16 idx) => .ok (varRefName b idx :: stack, stmts)
    | _ => .ok ("<get_var_ref>" :: stack, stmts)
  else if strStarts n "get_var_ref" ∧ n ≠ "get_var_ref" ∧ n ≠ "get_var_ref_check" ∧
      allDigits (strDropChars n 11) then
    match parseU16 (strDropChars n 11) with
    | some idx => .ok (varRefName b idx :: stack, stmts)
    | Option.none => .ok (("<" ++ n ++ ">") :: stack, stmts)
  else if n = "set_var_ref" ∨ n = "set_var_ref_check" then
    let (rhs, stack) := popOr "<rhs>" stack
    match ins.operand with
    | some (.u16 idx) =>
      let name := varRefName b idx
      .ok (rhs :: stack, stmts ++ [.expr (name ++ " = " ++ rhs)])
    | _ => .ok (rhs :: stack, stmts ++ [.expr ("<set_var_ref> = " ++ rhs)])
  else if strStarts n "set_var_ref" ∧ n ≠ "set_var_ref" ∧ n ≠ "set_var_ref_check" ∧
      allDigits (strDropChars n 11) then
    match parseU16 (strDropChars n 11) with
    | some idx =>
      let (rhs, stack) := popOr "<rhs>" stack
      let name := varRefName b idx
      .ok (rhs :: stack, stmts ++ [.expr (name ++ " = " ++ rhs)])
    | Option.none => .ok (("<" ++ n ++ ">") :: stack, stmts)
  else if n = "put_var_ref" ∨ n = "put_var_ref_check" ∨ n = "put_var_ref_check_init" then
    let (rhs, stack) := popOr "<rhs>" stack
    match ins.operand with
    | some (.u16 idx) =>
      let name := varRefName b idx
      .ok (stack, stmts ++ [.expr (name ++ " = " ++ rhs)])
    | _ => .ok (stack, stmts ++ [.expr ("<put_var_ref> = " ++ rhs)])
  else if strStarts n "put_var_ref" ∧ n ≠ "put_var_ref" ∧ n ≠ "put_var_ref_check" ∧
      n ≠ "put_var_ref_check_init" ∧ allDigits (strDropChars n 11) then
    match parseU16 (strDropChars n 11) with
    | some idx =>
      let (rhs, stack) := popOr "<rhs>" stack
      let name := varRefName b idx
      .ok (stack, stmts ++ [.expr (name ++ " = " ++ rhs)])
    | Option.none => .ok (("<" ++ n ++ ">") :: stack, stmts)
  else if n = "drop" then
    .ok (stack.tail, stmts)
  else if n = "dup" then
    match stack with
    | x :: _ => .ok (x :: stack, stmts)
    | [] => .ok (stack, stmts)
  else if n = "swap" then
    match stack with
    | x :: y :: rest => .ok (y :: x :: rest, stmts)
    | _ => .ok (stack, stmts)
  else if n = "nip" then
    match stack with
    | x :: _ :: rest => .ok (x :: rest, stmts)
    | _ => .ok (stack, stmts)
  else if n = "add" ∨ n = "sub" ∨ n = "mul" ∨ n = "div" ∨ n = "mod" ∨ n = "and" ∨
      n = "or" ∨ n = "xor" ∨ n = "shl" ∨ n = "sar" ∨ n = "shr" ∨ n = "eq" ∨ n = "neq" ∨
      n = "strict_eq" ∨ n = "strict_neq" ∨ n = "lt" ∨ n = "lte" ∨ n = "gt" ∨ n = "gte" then
    let (rhs, stack) := popOr "<rhs>" stack
    let (lhs, stack) := popOr "<lhs>" stack
    let op :=
      if n = "add" then "+" else if n = "sub" then "-" else if n = "mul" then "*"
      else if n = "div" then "/" else if n = "mod" then "%" else if n = "and" then "&"
      else if n = "or" then "|" else if n = "xor" then "^" else if n = "shl" then "<<"
      else if n = "sar" then ">>" else if n = "shr" then ">>>" else if n = "eq" then "=="
      else if n = "neq" then "!=" else if n = "strict_eq" then "==="
      else if n = "strict_neq" then "!==" else if n = "lt" then "<"
      else if n = "lte" then "<=" else if n = "gt" then ">" else ">="
    .ok (("(" ++ lhs ++ " " ++ op ++ " " ++ rhs ++ ")") :: stack, stmts)
  else if n = "post_inc" then
    let (value, stack) := popOr "<value>" stack
    .ok ((value ++ " + 1") :: value :: stack, stmts)
  else if n = "is_undefined" then
    let (val, stack) := popOr "<val>" stack
    .ok ((val ++ " === undefined") :: stack, stmts)
  else if n = "to_object" then
    let (val, stack) := popOr "<val>" stack
    .ok (("Object(" ++ val ++ ")") :: stack, stmts)
  else if n = "to_propkey2" then
    let (val2, stack) := popOr "<val2>" stack
    let (val1, stack) := popOr "<val1>" stack
    .ok (("String(" ++ val2 ++ ")") :: ("String(" ++ val1 ++ ")") :: stack, stmts)
  else if n = "inc_loc" then
    match ins.operand with
    | some (.u8 idx) => .ok (stack, stmts ++ [.expr (locName b idx ++ "++")])
    | _ => .ok (stack, stmts)
  else if n = "regexp" then
    let (flags, stack) := popOr "<flags>" stack
    let (pattern, stack) := popOr "<pattern>" stack
    if strStarts flags "\"" ∧ strEnds flags "\"" ∧ flags.utf8ByteSize < 20 ∧
        ¬ strContains flags "\\u" then
      .ok (("new RegExp(" ++ pattern ++ ", " ++ flags ++ ")") :: stack, stmts)
    else
      .ok (("new RegExp(" ++ pattern ++ ")") :: stack, stmts)
  else if n = "in" then
    let (prop, stack) := popOr "<prop>" stack
    let (obj, stack) := popOr "<obj>" stack
    .ok (("(" ++ prop ++ " in " ++ obj ++ ")") :: stack, stmts)
  else if n = "object" then .ok ("\x7b\x7d" :: stack, stmts)
  else if n = "special_object" then
    match ins.operand with
    | some (.u8 kind) => .ok (("<special_object_" ++ toString kind ++ ">") :: stack, stmts)
    | _ => .ok ("<special_object>" :: stack, stmts)
  else if n = "instanceof" then
    let (constructor, stack) := popOr "<constructor>" stack
    let (obj, stack) := popOr "<obj>" stack
    .ok (("(" ++ obj ++ " instanceof " ++ constructor ++ ")") :: stack, stmts)
  else if n = "typeof" then
    let (value, stack) := popOr "<value>" stack
    .ok (("typeof " ++ value) :: stack, stmts)
  else if n = "define_field" then
    let (value, stack) := popOr "<value>" stack
    let (obj, stack) := popOr "<obj>" stack
    match ins.operand with
    | some (.atom idx) =>
      let (prop, stmts) : String × List Stmt :=
        match atoms.resolveIdx idx with
        | Except.ok p => (atomToString p, stmts)
        | Except.error e =>
          ("<invalid_atom>", stmts ++ [.expr ("// Atom resolution error: " ++ errToString e)])
      .ok (obj :: stack, stmts ++ [.expr (obj ++ "." ++ prop ++ " = " ++ value)])
    | _ =>
      .ok ("<define_field>" :: stack,
        stmts ++ [.expr ("<define_field> " ++ obj ++ " " ++ value)])
  else if n = "set_name" then
    let (obj, stack) := popOr "<obj>" stack
    match ins.operand with
    | some (.atom idx) =>
      let (name, stmts) : String × List Stmt :=
        match atoms.resolveIdx idx with
        | Except.ok a => (atomToString a, stmts)
        | Except.error e =>
          ("<invalid_atom>", stmts ++ [.expr ("// Atom resolution error: " ++ errToString e)])
      .ok (obj :: stack, stmts ++ [.expr (obj ++ ".name = \"" ++ name ++ "\"")])
    | _ => .ok ("<set_name>" :: stack, stmts)
  else if n = "define_class" then
    let (parentCtor, stack) := popOr "<parent_ctor>" stack
    match ins.operand with
    | some (.atomU8 idx _flags) =>
      let (name, stmts) : String × List Stmt :=
        match atoms.resolveIdx idx with
        | Except.ok a => (atomToString a, stmts)
        | Except.error e =>
          ("<invalid_atom>", stmts ++ [.expr ("// Atom resolution error: " ++ errToString e)])
      .ok ("<proto>" :: "<ctor>" :: stack,
        stmts ++ [.expr ("class " ++ name ++ " extends " ++ parentCtor)])
    | _ => .ok ("<define_class>" :: stack, stmts)
  else if n = "define_method" then
    let (method, stack) := popOr "<method>" stack
    let (obj, stack) := popOr "<obj>" stack
    match ins.operand with
    | some (.atomU8 idx _flags) =>
      let (name, stmts) : String × List Stmt :=
        match atoms.resolveIdx idx with
        | Except.ok a => (atomToString a, stmts)
        | Except.error e =>
          ("<invalid_atom>", stmts ++ [.expr ("// Atom resolution error: " ++ errToString e)])
      .ok (obj :: stack, stmts ++ [.expr (obj ++ "." ++ name ++ " = " ++ method)])
    | _ => .ok ("<define_method>" :: stack, stmts)
  else if n = "close_loc" then
    match ins.operand with
    | some (.u16 idx) => .ok (stack, stmts ++ [.expr ("close " ++ locName b idx)])
    | _ => .ok (stack, stmts)
  else if n = "check_ctor" then
    .ok (stack, stmts ++ [.expr "check_ctor"])
  else if n = "not" ∨ n = "lnot" then
    let (v, stack) := popOr "<v>" stack
    let op := if n = "not" then "~" else "!"
    .ok (("(" ++ op ++ v ++ ")") :: stack, stmts)
  else if n = "call" ∨ n = "tail_call" ∨ n = "call_method" ∨ n = "tail_call_method" ∨
      n = "call_constructor" ∨ n = "array_from" then
    match ins.operand with
    | some (.nPop argc) =>
      let (args, stack) := popArgsN argc stack
      let (func, stack) := popOr "<func>" stack
      .ok ((func ++ "(" ++ String.intercalate ", " args.reverse ++ ")") :: stack, stmts)
    | _ => .ok (stack, stmts)
  else if strStarts n "call" ∧ allDigits (strDropChars n 4) then
    let argc := (parseNatDigits (strDropChars n 4)).getD 0
    let (args, stack) := popArgsN argc stack
    let (func, stack) := popOr "<func>" stack
    .ok ((func ++ "(" ++ String.intercalate ", " args.reverse ++ ")") :: stack, stmts)
  else if n = "put_loc" ∨ n = "put_loc8" then
    let (rhs, stack) := popOr "<rhs>" stack
    let idx :=
      match ins.operand with
      | some (.u16 v) => v
      | some (.u8 v) => v
      | _ => 0
    .ok (stack, stmts ++ [.assign (locName b idx) rhs])
  else if strStarts n "put_loc" ∧ n ≠ "put_loc" ∧ n ≠ "put_loc8" ∧
      allDigits (strDropChars n 7) then
    match parseU16 (strDropChars n 7) with
    | some idx =>
      let (rhs, stack) := popOr "<rhs>" stack
      .ok (stack, stmts ++ [.assign (locName b idx) rhs])
    | Option.none => .ok (("<" ++ n ++ ">") :: stack, stmts)
  else if n = "put_loc_check" then
    match ins.operand with
    | some (.u16 idx) =>
      let (rhs, stack) := popOr "<rhs>" stack
      .ok (stack, stmts ++ [.assign (locName b idx) rhs])
    | _ => .ok (stack, stmts)
  else if n = "set_loc" ∨ n = "set_loc8" then
    let rhs := stack.headD "<rhs>"
    let idx :=
      match ins.operand with
      | some (.u16 v) => v
      | some (.u8 v) => v
      | _ => 0
    .ok (stack, stmts ++ [.assign (locName b idx) rhs])
  else if n = "set_loc_uninitialized" then
    match ins.operand with
    | some (.u16 idx) => .ok (stack, stmts ++ [.expr (locName b idx ++ " = undefined")])
    | _ => .ok (stack, stmts)
  else if strStarts n "set_loc" ∧ n ≠ "set_loc" ∧ n ≠ "set_loc8" ∧
      allDigits (strDropChars n 7) then
    match parseU16 (strDropChars n 7) with
    | some idx =>
      let rhs := stack.headD "<rhs>"
      .ok (stack, stmts ++ [.assign (locName b idx) rhs])
    | Option.none => .ok (("<" ++ n ++ ">") :: stack, stmts)
  else if n = "put_arg" then
    let (rhs, stack) := popOr "<rhs>" stack
    let idx :=
      match ins.operand with
      | some (.u16 v) => v
      | _ => 0
    .ok (stack, stmts ++ [.assign (argName b idx) rhs])
  else if strStarts n "put_arg" ∧ n ≠ "put_arg" ∧ allDigits (strDropChars n 7) then
    match parseU16 (strDropChars n 7) with
    | some idx =>
      let (rhs, stack) := popOr "<rhs>" stack
      .ok (stack, stmts ++ [.assign (argName b idx) rhs])
    | Option.none => .ok (("<" ++ n ++ ">") :: stack, stmts)
  else if n = "set_arg" then
    let rhs := stack.headD "<rhs>"
    let idx :=
      match ins.operand with
      | some (.u16 v) => v
      | _ => 0
    .ok (stack, stmts ++ [.assign (argName b idx) rhs])
  else if strStarts n "set_arg" ∧ n ≠ "set_arg" ∧ allDigits (strDropChars n 7) then
    match parseU16 (strDropChars n 7) with
    | some idx =>
      let rhs := stack.headD "<rhs>"
      .ok (stack, stmts ++ [.assign (argName b idx) rhs])
    | Option.none => .ok (("<" ++ n ++ ">") :: stack, stmts)
  else if n = "get_var" ∨ n = "get_var_undef" then
    match ins.operand with
    | some (.atom idx) => do
      let a ← atoms.resolveIdx idx
      .ok (atomToString a :: stack, stmts)
    | _ => .ok (stack, stmts)
  else if n = "put_var" ∨ n = "put_var_init" then
    let (rhs, stack) := popOr "<rhs>" stack
    match ins.operand with
    | some (.atom idx) => do
      let a ← atoms.resolveIdx idx
      .ok (stack, stmts ++ [.assign (atomToString a) rhs])
    | _ => .ok (stack, stmts)
  else if n = "get_field" ∨ n = "get_field2" then
    match ins.operand with
    | some (.atom idx) => do
      let prop ← atoms.resolveIdx idx
      let (obj, stack) := popOr "<obj>" stack
      .ok ((obj ++ "." ++ atomToString prop) :: stack, stmts)
    | _ => .ok (stack, stmts)
  else if n = "put_field" then
    let (rhs, stack) := popOr "<rhs>" stack
    let (obj, stack) := popOr "<obj>" stack
    match ins.operand with
    | some (.atom idx) => do
      let prop ← atoms.resolveIdx idx
      .ok (stack, stmts ++ [.expr (obj ++ "." ++ atomToString prop ++ " = " ++ rhs)])
    | _ => .ok (stack, stmts)
  else if n = "get_array_el" ∨ n = "get_array_el2" then
    let (prop, stack) := popOr "<prop>" stack
    let (obj, stack) := popOr "<obj>" stack
    let value := obj ++ "[" ++ prop ++ "]"
    if n = "get_array_el" then
      .ok (value :: stack, stmts)
    else
      .ok (value :: obj :: stack, stmts)
  else if n = "put_array_el" then
    let (rhs, stack) := popOr "<rhs>" stack
    let (index, stack) := popOr "<index>" stack
    let (obj, stack) := popOr "<obj>" stack
    .ok (stack, stmts ++ [.expr (obj ++ "[" ++ index ++ "] = " ++ rhs)])
  else if n = "get_length" then
    let (obj, stack) := popOr "<obj>" stack
    .ok ((obj ++ ".length") :: stack, stmts)
  else if n = "return" then
    let (v, stack) := popOr "undefined" stack
    .ok (stack, stmts ++ [.ret (some v)])
  else if n = "return_undef" then
    .ok (stack, stmts ++ [.ret Option.none])
  else if n = "ret" then
    let (v, stack) := popOr "undefined" stack
    .ok (stack, stmts ++ [.expr ("ret " ++ v)])
  else if n = "throw" then
    let (v, stack) := popOr "<value>" stack
    .ok (stack, stmts ++ [.expr ("throw " ++ v)])
  else if n = "if_false" ∨ n = "if_true" ∨ n = "if_false8" ∨ n = "if_true8" then
    let (cond, stack) := popOr "<cond>" stack
    let target := (labelTarget ins).getD 0
    if strContains n "false" then
      .ok (stack, stmts ++ [.condGoto cond true target])
    else
      .ok (stack, stmts ++ [.condGoto cond false target])
  else if n = "goto" ∨ n = "goto8" ∨ n = "goto16" then
    let target := (labelTarget ins).getD 0
    .ok (stack, stmts ++ [.goto target])
  else if n = "gosub" then
    let target := (labelTarget ins).getD 0
    .ok (stack, stmts ++ [.expr ("gosub L" ++ toString target)])
  else if n = "catch" then
    .ok ("<exception>" :: stack, stmts)
  else if n = "for_of_start" then
    .ok ("<done>" :: "<method>" :: "<iterator>" :: stack.tail, stmts)
  else if n = "for_of_next" then
    let (done, stack) := popOr "<done>" stack
    let (method, stack) := popOr "<method>" stack
    let (iterator, stack) := popOr "<iterator>" stack
    .ok ("<done>" :: "<value>" :: done :: method :: iterator :: stack, stmts)
  else if n = "iterator_close" then
    .ok (stack.tail.tail.tail, stmts)
  else if n = "insert2" then
    let (a, stack) := popOr "<a>" stack
    let (obj, stack) := popOr "<obj>" stack
    .ok (a :: obj :: a :: stack, stmts)
  else if n = "insert3" then
    let (a, stack) := popOr "<a>" stack
    let (prop, stack) := popOr "<prop>" stack
    let (obj, stack) := popOr "<obj>" stack
    .ok (a :: prop :: obj :: a :: stack, stmts)
  else if n = "insert4" then
    let (a, stack) := popOr "<a>" stack
    let (prop, stack) := popOr "<prop>" stack
    let (obj, stack) := popOr "<obj>" stack
    let (this, stack) := popOr "<this>" stack
    .ok (a :: prop :: obj :: this :: a :: stack, stmts)
  else
    let (npop, npush) := (opcodeStackEffect ins.op).getD (ins.nPop, ins.nPush)
    let stack := stack.drop npop
    let stack := (List.replicate npush ("<" ++ n ++ ">")) ++ stack
    .ok (stack, stmts ++ [.expr ("<" ++ n ++ ">")])

/-- The per-block emission loop of `pseudo_decompile_from_instrs`:
a `Label` for the block start, then the instructions over a fresh symbolic
stack. -/
def execBlockInstrs (b : FunctionBytecode) (atoms : AtomTable) (deobfuscate : Bool) :
    List Instr → List String → List Stmt → Except DeqjsError (List String × List Stmt)
  | [], stack, stmts => .ok (stack, stmts)
  | ins :: rest, stack, stmts => do
    let (stack, stmts) ← execInstr b atoms deobfuscate ins stack stmts
    execBlockInstrs b atoms deobfuscate rest stack stmts

/-- Emission over all blocks, in block order. -/
def execBlocks (b : FunctionBytecode) (atoms : AtomTable) (deobfuscate : Bool) :
    List BasicBlock → List Stmt → Except DeqjsError (List Stmt)
  | [], stmts => .ok stmts
  | blk :: rest, stmts => do
    let (_, stmts) ← execBlockInstrs b atoms deobfuscate blk.instrs []
      (stmts ++ [.label blk.startPc])
    execBlocks b atoms deobfuscate rest stmts

/-- Rendering fuel for `stmtsToString`, computed from the flat length of
the emitter's pre-pass statement list (an upper bound on the node count
after the passes, which never duplicate statements). -/
def renderFuel (preLen : Nat) : Nat := 3 * preLen + 3

/-- `pseudo_decompile_from_instrs`. -/
def pseudoDecompileFromInstrs (b : FunctionBytecode) (atoms : AtomTable)
    (instrs : List Instr) (funcName : String) (optimize deobfuscate : Bool) :
    Except DeqjsError String := do
  let blocks := buildCfg instrs
  let stmts ← execBlocks b atoms deobfuscate blocks []
  let preLen := stmts.length
  let stmts := tryStructureWhile stmts
  let stmts := tryStructureIfElse stmts
  let stmts := if optimize then optimizeStmts stmts else stmts
  if optimize then
    let hasAnyReal := stmts.any fun s => ¬ s.isLabel
    if ¬ hasAnyReal then
      .ok ""
    else
      match stmts with
      | [.label _, .ret (some expr)] =>
        .ok ("function " ++ funcName ++ "() \x7b return " ++ expr ++ "; \x7d\n")
      | [.label _, .ret Option.none] =>
        .ok ("function " ++ funcName ++ "() \x7b return; \x7d\n")
      | [.ret (some expr)] =>
        .ok ("function " ++ funcName ++ "() \x7b return " ++ expr ++ "; \x7d\n")
      | [.ret Option.none] =>
        .ok ("function " ++ funcName ++ "() \x7b return; \x7d\n")
      | _ =>
        .ok ("function " ++ funcName ++ "() \x7b\n" ++ stmtsToString (renderFuel preLen) stmts 2 ++
          "\x7d\n")
  else
    .ok ("function " ++ funcName ++ "() \x7b\n" ++ stmtsToString (renderFuel preLen) stmts 2 ++ "\x7d\n")

/-- `fmt_name`. -/
def fmtName : OpFmt → String
  | .none => "none"
  | .noneInt => "none_int"
  | .noneLoc => "none_loc"
  | .noneArg => "none_arg"
  | .noneVarRef => "none_var_ref"
  | .u8 => "u8"
  | .i8 => "i8"
  | .loc8 => "loc8"
  | .const8 => "const8"
  | .label8 => "label8"
  | .u16 => "u16"
  | .i16 => "i16"
  | .label16 => "label16"
  | .nPop => "npop"
  | .nPopX => "npopx"
  | .nPopU16 => "npop_u16"
  | .loc => "loc"
  | .arg => "arg"
  | .varRef => "var_ref"
  | .u32 => "u32"
  | .u32x2 => "u32x2"
  | .i32 => "i32"
  | .const => "const"
  | .label => "label"
  | .atom => "atom"
  | .atomU8 => "atom_u8"
  | .atomU16 => "atom_u16"
  | .atomLabelU8 => "atom_label_u8"
  | .atomLabelU16 => "atom_label_u16"
  | .labelU16 => "label_u16"

/-- Rust `{:05}` zero-padded formatting of a `usize`. -/
def pad05 (n : Nat) : String :=
  let s := toString n
  String.mk (List.replicate (5 - s.length) '0') ++ s

/-- Rust `{:<18}` left-justified space-padded formatting. -/
def padRight18 (s : String) : String :=
  s ++ String.mk (List.replicate (18 - s.length) ' ')

/-- The atom rendering of the disassembler:
`atoms.resolve_idx(idx).unwrap_or(Raw(idx))`. -/
def resolveOrRaw (atoms : AtomTable) (idx : Nat) : AtomRepr :=
  match atoms.resolveIdx idx with
  | .ok a => a
  | .error _ => .raw idx

/-- One disassembly line's operand text. -/
def disasmOperand (atoms : AtomTable) : Option Operand → String
  | Option.none => ""
  | some (.u8 v) => "       " ++ toString v
  | some (.i8 v) => "       " ++ toString v
  | some (.u16 v) => "       " ++ toString v
  | some (.i16 v) => "       " ++ toString v
  | some (.u32 v) => "       " ++ toString v
  | some (.i32 v) => "       " ++ toString v
  | some (.u32x2 a b) => "       " ++ toString a ++ ", " ++ toString b
  | some (.label rel) => "       " ++ toString rel
  | some (.labelAbs v) => "       " ++ toString v
  | some (.labelU16 a b) => "       " ++ toString a ++ ", " ++ toString b
  | some (.const idx) => "       " ++ toString idx
  | some (.atom idx) =>
    "       " ++ toString idx ++ " ; " ++ atomToString (resolveOrRaw atoms idx)
  | some (.atomU8 idx v) =>
    "       " ++ toString idx ++ ", " ++ toString v ++ " ; " ++
      atomToString (resolveOrRaw atoms idx)
  | some (.atomU16 idx v) =>
    "       " ++ toString idx ++ ", " ++ toString v ++ " ; " ++
      atomToString (resolveOrRaw atoms idx)
  | some (.atomLabelU8 idx rel v) =>
    "       " ++ toString idx ++ ", " ++ toString rel ++ ", " ++ toString v ++ " ; " ++
      atomToString (resolveOrRaw atoms idx)
  | some (.atomLabelU16 idx rel v) =>
    "       " ++ toString idx ++ ", " ++ toString rel ++ ", " ++ toString v ++ " ; " ++
      atomToString (resolveOrRaw atoms idx)
  | some (.nPop v) => "       " ++ toString v
  | some (.nPopU16 a b) => "       " ++ toString a ++ ", " ++ toString b

/-- `disassemble_function_with_atoms_and_instrs`. -/
def disassembleFunction (b : FunctionBytecode) (atoms : AtomTable)
    (instrs : List Instr) (funcName : String) : Except DeqjsError String :=
  let header :=
    "function " ++ funcName ++ " (args=" ++ toString b.argCount ++ ", vars=" ++
      toString b.varCount ++ ", strict=" ++ (if b.isStrictMode then "true" else "false") ++
      ")\n" ++ "bytecode:\n"
  let line (ins : Instr) : String :=
    let core := pad05 ins.pc ++ " " ++ padRight18 ins.name ++ disasmOperand atoms ins.operand
    let core :=
      if ins.fmt = .noneInt ∨ ins.fmt = .noneLoc ∨ ins.fmt = .noneArg ∨
          ins.fmt = .noneVarRef ∨ ins.fmt = .nPopX then
        core ++ "       <fmt:" ++ fmtName ins.fmt ++ ">"
      else core
    core ++ "\n"
  .ok (header ++ String.join (instrs.map line))

mutual

/-- `collect_functions`: depth-first pre-order collection of every
`FunctionBytecode` in the value tree. -/
def collectFunctions : Value → List FunctionBytecode
  | .function (.mk fn st a v d ss vr cv cc bl lo clv cpool bc) =>
    FunctionBytecode.mk fn st a v d ss vr cv cc bl lo clv cpool bc :: collectFunctionsL cpool
  | .array items => collectFunctionsL items
  | .object props => collectFunctionsP props
  | .module _ funcObj => collectFunctions funcObj
  | .typedArray _ _ _ buffer => collectFunctions buffer
  | .date value => collectFunctions value
  | _ => []

/-- List worker of `collect_functions`. -/
def collectFunctionsL : List Value → List FunctionBytecode
  | [] => []
  | v :: rest => collectFunctions v ++ collectFunctionsL rest

/-- Property-list worker of `collect_functions`. -/
def collectFunctionsP : List (AtomRepr × Value) → List FunctionBytecode
  | [] => []
  | (_, v) :: rest => collectFunctions v ++ collectFunctionsP rest

end

/-- `module_entry_function`. -/
def moduleEntryFunction : Value → Option FunctionBytecode
  | .module _ (.function b) => some b
  | _ => Option.none

/-- `collect_functions_entry_first`.  The Rust code removes the entry by
pointer identity (`std::ptr::eq`) and reinserts it at index 0; because the
value graph is a tree and the collection walk enters the module's function
object before anything else, the entry node is exactly the first collected
element, so pointer-based removal plus reinsertion yields
`entry :: (collected list minus its head)`. -/
def collectFunctionsEntryFirst (v : Value) : List FunctionBytecode :=
  let funcs := collectFunctions v
  match moduleEntryFunction v with
  | some entry => entry :: funcs.tail
  | Option.none => funcs

/-- The per-function loop of `decompile_functions_with`, carrying the
enumeration index and the accumulated output. -/
def decompileFunctionsLoop (options : DecompileOptions) (atoms : AtomTable)
    (decode : FunctionBytecode → Except DeqjsError (List Instr)) :
    List FunctionBytecode → Nat → String → Except DeqjsError String
  | [], _, out => .ok out
  | b :: rest, idx, out => do
    let instrs ← decode b
    let funcName := displayFuncName options b idx
    let s ←
      match options.mode with
      | .pseudo =>
        match pseudoDecompileFromInstrs b atoms instrs funcName
            options.optimize options.deobfuscate with
        | .ok s => pure s
        | .error e => pure ("// Pseudo decompilation error: " ++ errToString e ++ "\n")
      | .disasm => disassembleFunction b atoms instrs funcName
    let out :=
      if (trimStr s).isEmpty then out
      else if out.isEmpty then s
      else out ++ "\n" ++ s
    decompileFunctionsLoop options atoms decode rest (idx + 1) out

/-- `decompile_functions_with`. -/
def decompileFunctionsWith (funcs : List FunctionBytecode) (options : DecompileOptions)
    (atoms : AtomTable) (decode : FunctionBytecode → Except DeqjsError (List Instr)) :
    Except DeqjsError String :=
  decompileFunctionsLoop options atoms decode funcs 0 ""

/-- The deserializer fuel used by the entry point.  The value readers
decrement the fuel on every recursive call (descent into a nested value,
next element of a collection, or entry into a function record); along any
such chain at least one input byte is consumed per two decrements, so
`2 * length + 2` never runs out on inputs the Rust code terminates on —
that is, on all inputs. -/
def fuelFor (bytes : List Nat) : Nat := 2 * bytes.length + 2

/-- The version auto-selection of `decompile_with_options`. -/
def resolveVersion (options : DecompileOptions) (bytes : List Nat) : DecompileVersion :=
  match options.version with
  | .auto =>
    match (ReaderSt.mk bytes 0).peekU8 with
    | some b => if b = BC_VERSION_V1 then .legacy else .current
    | Option.none => .current
  | v => v

/-- `decompile_with_options`. -/
def decompileWithOptions (bytes : List Nat) (options : DecompileOptions) :
    Except DeqjsError String :=
  match resolveVersion options bytes with
  | .legacy => do
    let (atoms, r) ← readAtomTableV1 (ReaderSt.mk bytes 0)
    let atomsAdapted := atoms.toAtomTable
    let (v, _r) ← readValueV1 (fuelFor bytes) r atoms
    let funcs := collectFunctionsEntryFirst v
    if funcs.isEmpty then .ok (valueToString v)
    else decompileFunctionsWith funcs options atomsAdapted decodeInstructionsV1
  | .current => do
    let (atoms, r) ← readAtomTable (ReaderSt.mk bytes 0)
    let (v, _r) ← readValue (fuelFor bytes) r atoms
    let funcs := collectFunctionsEntryFirst v
    if funcs.isEmpty then .ok (valueToString v)
    else decompileFunctionsWith funcs options atoms decodeInstructions
  | .auto => .error .eof

/-- `decompile_with_mode`. -/
def decompileWithMode (bytes : List Nat) (mode : DecompileMode) : Except DeqjsError String :=
  decompileWithOptions bytes
    { mode, version := .auto, deobfuscate := false, optimize := false }

/-- `decompile`. -/
def decompile (bytes : List Nat) : Except DeqjsError String :=
  decompileWithOptions bytes DecompileOptions.default

/-! Concrete artefacts used by the claim theorems. -/

/-- Minimal atom table with no user atoms: `first_atom = 1`, so every
index `≥ 1` is out of range. -/
def atEmpty : AtomTable := .mk 1 []

/-- Minimal function record (all counts zero, empty bytecode). -/
def funcEmpty : FunctionBytecode := .mk .null false 0 0 0 0 0 0 0 0 [] [] [] []

/-- The claim-C3 function: legacy bytecode
`push_true; if_false L1; push_i8 1; return; L1: push_i8 2; return`
(opcodes 10, 105, 187, 40 of the legacy table; the `if_false` label is the
u32 delta 7, so the target is `pc 1 + 1 + 7 = 9`). -/
def funcC3 : FunctionBytecode :=
  .mk .null false 0 0 0 0 0 0 0 12 [] [] []
    [10, 105, 7, 0, 0, 0, 187, 1, 40, 187, 2, 40]

/-- The legacy atom table (builtin roster only) adapted to the common
shape, as the legacy decompile path builds it. -/
def c3Atoms : AtomTable := (AtomTableV1.mk LEGACY_V1_ATOMS).toAtomTable

/-- The pseudo output of the claim-C3 function through the real pipeline:
legacy decode, emission, and both structural passes. -/
def c3Output : Except DeqjsError String :=
  (decodeInstructionsV1 funcC3).bind fun instrs =>
    pseudoDecompileFromInstrs funcC3 c3Atoms instrs "f" false false

/-- The claim-C5 function: a single legacy `goto8` (opcode 234) with
relative offset 16, `byte_code_len = 2`. -/
def funcC5 : FunctionBytecode := .mk .null false 0 0 0 0 0 0 0 2 [] [] [] [234, 16]

/-- A `get_var` instruction whose atom index is the given one (shape as
produced by the legacy decoder for opcode 56). -/
def getVarIns (idx : Nat) : Instr :=
  { pc := 0, op := 56, name := "get_var", size := 5, fmt := .atom,
    operand := some (.atom idx), nPop := 0, nPush := 1 }

/-- A `define_field` instruction with the given atom index (opcode 76). -/
def defineFieldIns (idx : Nat) : Instr :=
  { pc := 0, op := 76, name := "define_field", size := 5, fmt := .atom,
    operand := some (.atom idx), nPop := 2, nPush := 1 }

/-- A `set_name` instruction with the given atom index (opcode 77). -/
def setNameIns (idx : Nat) : Instr :=
  { pc := 0, op := 77, name := "set_name", size := 5, fmt := .atom,
    operand := some (.atom idx), nPop := 1, nPush := 1 }

/-- A `define_class` instruction with the given atom index (opcode 86). -/
def defineClassIns (idx : Nat) : Instr :=
  { pc := 0, op := 86, name := "define_class", size := 6, fmt := .atomU8,
    operand := some (.atomU8 idx 0), nPop := 2, nPush := 2 }

/-- A `define_method` instruction with the given atom index (opcode 84). -/
def defineMethodIns (idx : Nat) : Instr :=
  { pc := 0, op := 84, name := "define_method", size := 6, fmt := .atomU8,
    operand := some (.atomU8 idx 0), nPop := 2, nPush := 1 }

/-- A `return_undef` instruction at the given pc (opcode 41). -/
def retUndefIns (pc : Nat) : Instr :=
  { pc := pc, op := 41, name := "return_undef", size := 1, fmt := .none,
    operand := Option.none, nPop := 0, nPush := 0 }

/-- The claim-C8 statement list: an outer while pattern whose body holds
an inner while pattern that itself contains a `goto` back to the outer
header.  The first pass structures only the inner loop; the second pass
can then structure the outer one, so the composed rewrite is not
idempotent. -/
def xC8 : List Stmt :=
  [.label 0, .condGoto "c1" true 100, .label 10, .condGoto "c2" true 50,
   .goto 0, .goto 10, .label 50, .goto 0, .label 100]

/-- The composed structural pass: while rewrite then if/else rewrite. -/
def structuralPass (l : List Stmt) : List Stmt :=
  tryStructureIfElse (tryStructureWhile l)

/-- Canonical SLEB128 encoder, written to the spec's words ("7 payload
bits per byte, high continuation bit, SLEB128 sign-extends"; canonical
means the shortest such encoding).  This is the spec-side counterpart
against which the reader's decoder is checked; five bytes always suffice
for an `i32`. -/
def slebEncodeCanonicalF : Nat → Int → List Nat
  | 0, _ => []
  | fuel + 1, v =>
    if -64 ≤ v ∧ v < 64 then [(v.emod 128).toNat]
    else ((v.emod 128).toNat + 128) :: slebEncodeCanonicalF fuel (v.ediv 128)

/-- Canonical SLEB128 encoding of an `i32` (see `slebEncodeCanonicalF`). -/
def slebEncodeCanonical (v : Int) : List Nat :=
  slebEncodeCanonicalF 5 v

/-! Claim theorems. -/

/-- C7: for every atom table and encoded atom index `i`, resolution
returns Null when `i = 0`, Builtin(i) when `0 < i < first_atom`, the user
atom at position `i - first_atom` when that position is in range, and
fails with InvalidAtomIndex(i) when it is out of range. -/
theorem c7_atom_resolution_cases (t : AtomTable) (i : Nat) :
    (i = 0 → t.resolveIdx i = .ok .null) ∧
    (0 < i → i < t.firstAtom → t.resolveIdx i = .ok (.builtin i)) ∧
    (0 < i → t.firstAtom ≤ i → i - t.firstAtom < t.idxToAtom.length →
      t.resolveIdx i = .ok (t.idxToAtom.getD (i - t.firstAtom) .null)) ∧
    (0 < i → t.firstAtom ≤ i → t.idxToAtom.length ≤ i - t.firstAtom →
      t.resolveIdx i = .error (.invalidAtomIndex i)) := by
  refine ⟨fun h => ?_, fun h1 h2 => ?_, fun h1 h2 h3 => ?_, fun h1 h2 h3 => ?_⟩
  · simp [AtomTable.resolveIdx, h]
  · have h0 : ¬ i = 0 := by omega
    simp [AtomTable.resolveIdx, h0, h2]
  · have h0 : ¬ i = 0 := by omega
    have h4 : ¬ i < t.firstAtom := by omega
    have h5 : ¬ t.idxToAtom.length ≤ i - t.firstAtom := by omega
    simp [AtomTable.resolveIdx, h0, h4, h5]
  · have h0 : ¬ i = 0 := by omega
    have h4 : ¬ i < t.firstAtom := by omega
    simp [AtomTable.resolveIdx, h0, h4, h3]

/-- C7 witness: the four cases at a concrete table (`first_atom = 2`, one
user atom). -/
theorem c7_atom_resolution_witness :
    (AtomTable.mk 2 [.string "a"]).resolveIdx 0 = .ok .null ∧
    (AtomTable.mk 2 [.string "a"]).resolveIdx 1 = .ok (.builtin 1) ∧
    (AtomTable.mk 2 [.string "a"]).resolveIdx 2 = .ok (.string "a") ∧
    (AtomTable.mk 2 [.string "a"]).resolveIdx 3 = .error (.invalidAtomIndex 3) := by
  refine ⟨(c7_atom_resolution_cases _ 0).1 rfl,
    (c7_atom_resolution_cases _ 1).2.1 (by decide) (by decide), ?_,
    (c7_atom_resolution_cases _ 3).2.2.2 (by decide) (by decide) (by decide)⟩
  have := (c7_atom_resolution_cases (AtomTable.mk 2 [.string "a"]) 2).2.2.1
    (by decide) (by decide) (by decide)
  simpa using this

/-- C2: the legacy dialect rejects tag 10 (BigInt) with UnsupportedTag
instead of decoding a BigInt value as the spec (and the tag-sharing
comment in the source) prescribe: a legacy stream whose top-level value
has tag 10 fails, both at the value-reader level and end to end. -/
theorem c2_legacy_bigint_tag_rejected :
    readValueV1 4 (ReaderSt.mk [10, 0] 0) (AtomTableV1.mk LEGACY_V1_ATOMS) =
      .error (.unsupportedTag 10) ∧
    decompileWithOptions [1, 0, 10, 0] DecompileOptions.default =
      .error (.unsupportedTag 10) :=
  ⟨rfl, rfl⟩

/-- C3 counterexample: the emitted pseudo output for
`push_true; if_false L1; push_i8 1; return; L1: push_i8 2; return` does
not collapse to an `if (true) … else …` statement — it keeps the
conditional-goto form, and the text `if (true)` does not occur in it. -/
theorem c3_no_if_else_collapse :
    c3Output = .ok "function f() \x7b\n  L0:\n  if (!true) goto L9;\n  L6:\n  return 1;\n  L9:\n  return 2;\n\x7d\n" ∧
    strContains "function f() \x7b\n  L0:\n  if (!true) goto L9;\n  L6:\n  return 1;\n  L9:\n  return 2;\n\x7d\n" "if (true)" = false :=
  ⟨rfl, rfl⟩

/-- C3 (amended): for that bytecode the structural passes leave the
statement list unchanged (the if/else pattern requires a `Goto` directly
after the conditional branch and a `Goto(end)` ending the then-branch,
neither of which exists here), so the pseudo output keeps the
label/goto form shown. -/
theorem c3_actual_output :
    structuralPass
        [.label 0, .condGoto "true" true 9, .label 6, .ret (some "1"),
         .label 9, .ret (some "2")] =
      [.label 0, .condGoto "true" true 9, .label 6, .ret (some "1"),
       .label 9, .ret (some "2")] ∧
    c3Output = .ok "function f() \x7b\n  L0:\n  if (!true) goto L9;\n  L6:\n  return 1;\n  L9:\n  return 2;\n\x7d\n" :=
  ⟨rfl, rfl⟩

/-- C5 counterexample: the decoder accepts a function whose single
`goto8` branches to offset 17 while `byte_code_len` is 2 — the computed
target is not confined to `[0, byte_code_len]`. -/
theorem c5_unchecked_branch_target :
    decodeInstructionsV1 funcC5 =
      .ok [{ pc := 0, op := 234, name := "goto8", size := 2, fmt := .label8,
             operand := some (.label 16), nPop := 0, nPush := 0 }] ∧
    labelTarget { pc := 0, op := 234, name := "goto8", size := 2, fmt := .label8,
                  operand := some (.label 16), nPop := 0, nPush := 0 } = some 17 ∧
    funcC5.byteCodeLen = 2 ∧ ¬ (17 ≤ funcC5.byteCodeLen) :=
  ⟨rfl, rfl, rfl, by decide⟩

/-- C8 counterexample: applying the while rewrite followed by the if/else
rewrite twice differs from applying them once — on `xC8` the first
application structures only the inner loop and the second application then
collapses the outer one. -/
theorem c8_not_idempotent :
    structuralPass (structuralPass xC8) ≠ structuralPass xC8 :=
  fun h => absurd (congrArg List.length h) (by decide)

/-- C5 (amended): every target the decoder computes follows the claim's
formulas — `pc + 1 + rel` for label, absolute-label and label-u16 forms
and `pc + 5 + rel` for the atom-label forms (with the `u32` bases the
code uses) — and is therefore never negative; the decoder performs no
check of the target against `byte_code_len`. -/
theorem c5_label_target_formula (i : Instr) (t : Nat) (h : labelTarget i = some t) :
    (∃ rel : Int, i.operand = some (.label rel) ∧
      (t : Int) = ((i.pc + 1 : Nat) : Int) + rel) ∨
    (∃ rel : Nat, i.operand = some (.labelAbs rel) ∧ t = (i.pc + 1) % 2 ^ 32 + rel) ∨
    (∃ a rel x, i.operand = some (.atomLabelU8 a rel x) ∧ t = (i.pc + 5) % 2 ^ 32 + rel) ∨
    (∃ a rel x, i.operand = some (.atomLabelU16 a rel x) ∧ t = (i.pc + 5) % 2 ^ 32 + rel) ∨
    (∃ rel x, i.operand = some (.labelU16 rel x) ∧ t = (i.pc + 1) % 2 ^ 32 + rel) := by
  unfold labelTarget at h
  match hop : i.operand with
  | Option.none => rw [hop] at h; exact absurd h (by simp)
  | some (.u8 v) | some (.i8 v) | some (.u16 v) | some (.i16 v) | some (.u32 v)
  | some (.i32 v) | some (.u32x2 a b) | some (.const v) | some (.atom v)
  | some (.atomU8 a b) | some (.atomU16 a b) | some (.nPop v) | some (.nPopU16 a b) =>
    rw [hop] at h; exact absurd h (by simp)
  | some (.label rel) =>
    rw [hop] at h
    simp only at h
    split at h
    · exact absurd h (by simp)
    · left
      refine ⟨rel, rfl, ?_⟩
      have := Option.some.inj h
      subst this
      omega
  | some (.labelAbs rel) =>
    rw [hop] at h
    simp only at h
    split at h
    · right; left
      exact ⟨rel, rfl, (Option.some.inj h).symm⟩
    · exact absurd h (by simp)
  | some (.atomLabelU8 a rel x) =>
    rw [hop] at h
    simp only at h
    split at h
    · right; right; left
      exact ⟨a, rel, x, rfl, (Option.some.inj h).symm⟩
    · exact absurd h (by simp)
  | some (.atomLabelU16 a rel x) =>
    rw [hop] at h
    simp only at h
    split at h
    · right; right; right; left
      exact ⟨a, rel, x, rfl, (Option.some.inj h).symm⟩
    · exact absurd h (by simp)
  | some (.labelU16 rel x) =>
    rw [hop] at h
    simp only at h
    split at h
    · right; right; right; right
      exact ⟨rel, x, rfl, (Option.some.inj h).symm⟩
    · exact absurd h (by simp)

/-- C5 amended witness: the formula instantiated at the decoded `goto8`
of `funcC5` (pc 0, relative 16, target 17). -/
theorem c5_label_target_formula_witness :
    (∃ rel : Int, (Instr.mk 0 234 "goto8" 2 .label8 (some (.label 16)) 0 0).operand =
        some (.label rel) ∧ ((17 : Nat) : Int) = ((0 + 1 : Nat) : Int) + rel) ∨
    (∃ rel : Nat, (Instr.mk 0 234 "goto8" 2 .label8 (some (.label 16)) 0 0).operand =
        some (.labelAbs rel) ∧ 17 = (0 + 1) % 2 ^ 32 + rel) ∨
    (∃ a rel x, (Instr.mk 0 234 "goto8" 2 .label8 (some (.label 16)) 0 0).operand =
        some (.atomLabelU8 a rel x) ∧ 17 = (0 + 5) % 2 ^ 32 + rel) ∨
    (∃ a rel x, (Instr.mk 0 234 "goto8" 2 .label8 (some (.label 16)) 0 0).operand =
        some (.atomLabelU16 a rel x) ∧ 17 = (0 + 5) % 2 ^ 32 + rel) ∨
    (∃ rel x, (Instr.mk 0 234 "goto8" 2 .label8 (some (.label 16)) 0 0).operand =
        some (.labelU16 rel x) ∧ 17 = (0 + 1) % 2 ^ 32 + rel) :=
  c5_label_target_formula (Instr.mk 0 234 "goto8" 2 .label8 (some (.label 16)) 0 0) 17 rfl

/-- Length bound for `List.dropWhile`. -/
theorem dropWhile_length_le (p : Stmt → Bool) :
    ∀ l : List Stmt, (l.dropWhile p).length ≤ l.length := by
  intro l
  induction l with
  | nil => simp
  | cons a l ih =>
    by_cases h : p a
    · simp [List.dropWhile, h]
      omega
    · simp [List.dropWhile, h]

/-- On success, `whileSplit` consumed at least the `Goto` and the end
label from its input. -/
theorem whileSplit_length (loopPc endPc : Nat) (rest tail : List Stmt)
    (h : whileSplit loopPc endPc rest = some tail) :
    tail.length + 2 ≤ rest.length := by
  unfold whileSplit at h
  split at h
  · rename_i t pc2 tl hdw
    split at h
    · cases h
      have hd := dropWhile_length_le (fun s => ¬ s.isGotoTo loopPc) rest
      rw [hdw] at hd
      simp only [List.length_cons] at hd
      omega
    · cases h
  · cases h

/-- On success, `ifElseTail` consumed at least the end label. -/
theorem ifElseTail_length (endPc : Nat) (tail2 elseStmts tail3 : List Stmt)
    (h : ifElseTail endPc tail2 = some (elseStmts, tail3)) :
    tail3.length + 1 ≤ tail2.length := by
  unfold ifElseTail at h
  split at h
  · rename_i pc2 tl hdw
    split at h
    · cases h
      have hd := dropWhile_length_le (fun s => ¬ s.isLabelEq endPc) tail2
      rw [hdw] at hd
      simp only [List.length_cons] at hd
      omega
    · cases h
  · cases h

/-- On success, `ifElseSplit` consumed at least the `Goto`, the else
label and the end label. -/
theorem ifElseSplit_length (elsePc : Nat) (rest thenStmts elseStmts tail3 : List Stmt)
    (h : ifElseSplit elsePc rest = some (thenStmts, elseStmts, tail3)) :
    tail3.length + 3 ≤ rest.length := by
  unfold ifElseSplit at h
  split at h
  · rename_i endPc pc tail2 hdw
    split at h
    · split at h
      · rename_i eS t3 hws
        have hd := dropWhile_length_le (fun s => ¬ s.isGoto ∧ ¬ s.isLabelEq elsePc) rest
        rw [hdw] at hd
        simp only [List.length_cons] at hd
        have ht := ifElseTail_length endPc tail2 eS t3 hws
        cases h
        omega
      · cases h
    · cases h
  · cases h

/-- Length bound for the while-rewrite scan. -/
theorem tryWhileGo_length_le : ∀ (fuel : Nat) (l : List Stmt),
    (tryWhileGo fuel l).length ≤ l.length := by
  intro fuel l
  induction fuel, l using tryWhileGo.induct with
  | case1 l => simp [tryWhileGo]
  | case2 n => simp [tryWhileGo]
  | case3 fuel loopPc cond endPc rest tail hws ih =>
    simp only [tryWhileGo, hws, if_true, List.length_cons]
    have := whileSplit_length loopPc endPc rest tail hws
    omega
  | case4 fuel loopPc cond endPc rest hws ih =>
    simp only [tryWhileGo, hws, if_true, List.length_cons]
    simp only [List.length_cons] at ih
    omega
  | case5 fuel loopPc cond ifFalse endPc rest h ih =>
    simp only [tryWhileGo, if_neg h, List.length_cons]
    simp only [List.length_cons] at ih
    omega
  | case6 fuel s0 tail0 hno ih =>
    have fin : (s0 :: tryWhileGo fuel tail0).length ≤ (s0 :: tail0).length := by
      simp only [List.length_cons]; omega
    rcases s0 with e | ⟨a1, a2⟩ | r | ⟨cc, bb, tt⟩ | ⟨ic, it, ie⟩ | ⟨wc, wb⟩ | g | lp <;>
      rcases tail0 with _ | ⟨s1, rest⟩ <;>
      try exact fin
    rcases s1 with e | ⟨a1, a2⟩ | r | ⟨cc, bb, tt⟩ | ⟨ic, it, ie⟩ | ⟨wc, wb⟩ | g | lp2 <;>
      first
        | exact fin
        | exact (hno lp cc bb tt rest rfl rfl).elim

/-- Length bound for the if/else-rewrite scan. -/
theorem tryIfElseGo_length_le : ∀ (fuel : Nat) (l : List Stmt),
    (tryIfElseGo fuel l).length ≤ l.length := by
  intro fuel l
  induction fuel, l using tryIfElseGo.induct with
  | case1 l => simp [tryIfElseGo]
  | case2 n => simp [tryIfElseGo]
  | case3 fuel cond elsePc x rest thenStmts elseStmts tail3 hws ih =>
    simp only [tryIfElseGo, hws, if_true, List.length_cons]
    have := ifElseSplit_length elsePc rest thenStmts elseStmts tail3 hws
    omega
  | case4 fuel cond elsePc x rest hws ih =>
    simp only [tryIfElseGo, hws, if_true, List.length_cons]
    simp only [List.length_cons] at ih
    omega
  | case5 fuel cond ifFalse elsePc x rest h ih =>
    simp only [tryIfElseGo, if_neg h, List.length_cons]
    simp only [List.length_cons] at ih
    omega
  | case6 fuel s0 tail0 hno ih =>
    have fin : (s0 :: tryIfElseGo fuel tail0).length ≤ (s0 :: tail0).length := by
      simp only [List.length_cons]; omega
    rcases s0 with e | ⟨a1, a2⟩ | r | ⟨cc, bb, tt⟩ | ⟨ic, it, ie⟩ | ⟨wc, wb⟩ | g | lp <;>
      rcases tail0 with _ | ⟨s1, rest⟩ <;>
      try exact fin
    rcases s1 with e | ⟨a1, a2⟩ | r | ⟨cc2, bb2, tt2⟩ | ⟨ic, it, ie⟩ | ⟨wc, wb⟩ | g | lp2 <;>
      first
        | exact fin
        | exact (hno cc bb tt g rest rfl rfl).elim

/-- C8 (amended): the claimed idempotence fails (see the counterexample),
and what does hold of the composed while-then-if/else rewrite is that it
never lengthens the statement list — a second application can only
collapse further (as on the counterexample, where it structures the outer
loop the first pass exposed). -/
theorem c8_structural_pass_length_monotone (s : List Stmt) :
    (structuralPass s).length ≤ s.length := by
  calc (tryStructureIfElse (tryStructureWhile s)).length
      ≤ (tryStructureWhile s).length := tryIfElseGo_length_le _ _
    _ ≤ s.length := tryWhileGo_length_le _ _

/-- C6: in the current dialect the declared-but-unsupported tags
(SharedArrayBuffer 16, ObjectValue 19, ObjectReference 20, Map 21,
Set 22) fail with `UnsupportedTag`; the module `[BC_VERSION, 0x00, 0x15]`
fails with `UnsupportedTag 21`; and any other tag outside the handled
range `1..=23` becomes an `Unsupported` placeholder value. -/
theorem c6_unsupported_tag_behaviour :
    (∀ t, t ∈ [16, 19, 20, 21, 22] → ∀ (fuel : Nat) (rest : List Nat) (atoms : AtomTable),
      readValue (fuel + 1) ⟨t :: rest, 0⟩ atoms = .error (.unsupportedTag t)) ∧
    decompileWithOptions [23, 0, 21] DecompileOptions.default = .error (.unsupportedTag 21) ∧
    (∀ t, t < 256 → (t = 0 ∨ 24 ≤ t) → ∀ (fuel : Nat) (rest : List Nat) (atoms : AtomTable),
      readValue (fuel + 1) ⟨t :: rest, 0⟩ atoms = .ok (.unsupported t, ⟨t :: rest, 1⟩)) := by
  refine ⟨?_, rfl, ?_⟩
  · intro t ht fuel rest atoms
    simp only [List.mem_cons, List.not_mem_nil, or_false] at ht
    rcases ht with rfl | rfl | rfl | rfl | rfl
    · simp [readValue, ReaderSt.getU8, ReaderSt.remaining, BC_TAG_NULL, BC_TAG_UNDEFINED,
        BC_TAG_BOOL_FALSE, BC_TAG_BOOL_TRUE, BC_TAG_INT32, BC_TAG_FLOAT64, BC_TAG_STRING,
        BC_TAG_OBJECT, BC_TAG_ARRAY, BC_TAG_TEMPLATE_OBJECT, BC_TAG_REGEXP, BC_TAG_BIG_INT,
        BC_TAG_SYMBOL, BC_TAG_ARRAY_BUFFER, BC_TAG_TYPED_ARRAY, BC_TAG_DATE, BC_TAG_MODULE,
        BC_TAG_FUNCTION_BYTECODE, BC_TAG_SHARED_ARRAY_BUFFER, BC_TAG_OBJECT_VALUE,
        BC_TAG_OBJECT_REFERENCE, BC_TAG_MAP, BC_TAG_SET, Except.bind, Bind.bind]
    · simp [readValue, ReaderSt.getU8, ReaderSt.remaining, BC_TAG_NULL, BC_TAG_UNDEFINED,
        BC_TAG_BOOL_FALSE, BC_TAG_BOOL_TRUE, BC_TAG_INT32, BC_TAG_FLOAT64, BC_TAG_STRING,
        BC_TAG_OBJECT, BC_TAG_ARRAY, BC_TAG_TEMPLATE_OBJECT, BC_TAG_REGEXP, BC_TAG_BIG_INT,
        BC_TAG_SYMBOL, BC_TAG_ARRAY_BUFFER, BC_TAG_TYPED_ARRAY, BC_TAG_DATE, BC_TAG_MODULE,
        BC_TAG_FUNCTION_BYTECODE, BC_TAG_SHARED_ARRAY_BUFFER, BC_TAG_OBJECT_VALUE,
        BC_TAG_OBJECT_REFERENCE, BC_TAG_MAP, BC_TAG_SET, Except.bind, Bind.bind]
    · simp [readValue, ReaderSt.getU8, ReaderSt.remaining, BC_TAG_NULL, BC_TAG_UNDEFINED,
        BC_TAG_BOOL_FALSE, BC_TAG_BOOL_TRUE, BC_TAG_INT32, BC_TAG_FLOAT64, BC_TAG_STRING,
        BC_TAG_OBJECT, BC_TAG_ARRAY, BC_TAG_TEMPLATE_OBJECT, BC_TAG_REGEXP, BC_TAG_BIG_INT,
        BC_TAG_SYMBOL, BC_TAG_ARRAY_BUFFER, BC_TAG_TYPED_ARRAY, BC_TAG_DATE, BC_TAG_MODULE,
        BC_TAG_FUNCTION_BYTECODE, BC_TAG_SHARED_ARRAY_BUFFER, BC_TAG_OBJECT_VALUE,
        BC_TAG_OBJECT_REFERENCE, BC_TAG_MAP, BC_TAG_SET, Except.bind, Bind.bind]
    · simp [readValue, ReaderSt.getU8, ReaderSt.remaining, BC_TAG_NULL, BC_TAG_UNDEFINED,
        BC_TAG_BOOL_FALSE, BC_TAG_BOOL_TRUE, BC_TAG_INT32, BC_TAG_FLOAT64, BC_TAG_STRING,
        BC_TAG_OBJECT, BC_TAG_ARRAY, BC_TAG_TEMPLATE_OBJECT, BC_TAG_REGEXP, BC_TAG_BIG_INT,
        BC_TAG_SYMBOL, BC_TAG_ARRAY_BUFFER, BC_TAG_TYPED_ARRAY, BC_TAG_DATE, BC_TAG_MODULE,
        BC_TAG_FUNCTION_BYTECODE, BC_TAG_SHARED_ARRAY_BUFFER, BC_TAG_OBJECT_VALUE,
        BC_TAG_OBJECT_REFERENCE, BC_TAG_MAP, BC_TAG_SET, Except.bind, Bind.bind]
    · simp [readValue, ReaderSt.getU8, ReaderSt.remaining, BC_TAG_NULL, BC_TAG_UNDEFINED,
        BC_TAG_BOOL_FALSE, BC_TAG_BOOL_TRUE, BC_TAG_INT32, BC_TAG_FLOAT64, BC_TAG_STRING,
        BC_TAG_OBJECT, BC_TAG_ARRAY, BC_TAG_TEMPLATE_OBJECT, BC_TAG_REGEXP, BC_TAG_BIG_INT,
        BC_TAG_SYMBOL, BC_TAG_ARRAY_BUFFER, BC_TAG_TYPED_ARRAY, BC_TAG_DATE, BC_TAG_MODULE,
        BC_TAG_FUNCTION_BYTECODE, BC_TAG_SHARED_ARRAY_BUFFER, BC_TAG_OBJECT_VALUE,
        BC_TAG_OBJECT_REFERENCE, BC_TAG_MAP, BC_TAG_SET, Except.bind, Bind.bind]
  · intro t h256 ht fuel rest atoms
    have n1 : ¬ (t = 1) := by omega
    have n2 : ¬ (t = 2) := by omega
    have n3 : ¬ (t = 3) := by omega
    have n4 : ¬ (t = 4) := by omega
    have n5 : ¬ (t = 5) := by omega
    have n6 : ¬ (t = 6) := by omega
    have n7 : ¬ (t = 7) := by omega
    have n8 : ¬ (t = 8) := by omega
    have n9 : ¬ (t = 9) := by omega
    have n10 : ¬ (t = 10) := by omega
    have n11 : ¬ (t = 11) := by omega
    have n12 : ¬ (t = 12) := by omega
    have n13 : ¬ (t = 13) := by omega
    have n14 : ¬ (t = 14) := by omega
    have n15 : ¬ (t = 15) := by omega
    have n16 : ¬ (t = 16) := by omega
    have n17 : ¬ (t = 17) := by omega
    have n18 : ¬ (t = 18) := by omega
    have n19 : ¬ (t = 19) := by omega
    have n20 : ¬ (t = 20) := by omega
    have n21 : ¬ (t = 21) := by omega
    have n22 : ¬ (t = 22) := by omega
    have n23 : ¬ (t = 23) := by omega
    simp [readValue, ReaderSt.getU8, ReaderSt.remaining, BC_TAG_NULL, BC_TAG_UNDEFINED,
      BC_TAG_BOOL_FALSE, BC_TAG_BOOL_TRUE, BC_TAG_INT32, BC_TAG_FLOAT64, BC_TAG_STRING,
      BC_TAG_OBJECT, BC_TAG_ARRAY, BC_TAG_TEMPLATE_OBJECT, BC_TAG_REGEXP, BC_TAG_BIG_INT,
      BC_TAG_SYMBOL, BC_TAG_ARRAY_BUFFER, BC_TAG_TYPED_ARRAY, BC_TAG_DATE, BC_TAG_MODULE,
      BC_TAG_FUNCTION_BYTECODE, BC_TAG_SHARED_ARRAY_BUFFER, BC_TAG_OBJECT_VALUE,
      BC_TAG_OBJECT_REFERENCE, BC_TAG_MAP, BC_TAG_SET, Except.bind, Bind.bind,
      n1, n2, n3, n4, n5, n6, n7, n8, n9, n10, n11, n12, n13, n14, n15, n16, n17, n18,
      n19, n20, n21, n22, n23]

/-- C6 witness: the Map tag errors at a concrete reader state, and the
unknown tag 99 becomes an `Unsupported` placeholder. -/
theorem c6_unsupported_tag_behaviour_witness :
    readValue 3 ⟨[21, 99], 0⟩ atEmpty = .error (.unsupportedTag 21) ∧
    readValue 3 ⟨[99], 0⟩ atEmpty = .ok (.unsupported 99, ⟨[99], 1⟩) :=
  ⟨c6_unsupported_tag_behaviour.1 21 (by decide) 2 [99] atEmpty,
   c6_unsupported_tag_behaviour.2.2 99 (by decide) (by decide) 2 [] atEmpty⟩

/-- C9: when deserialization succeeds and the decoded top-level value
yields no functions, `decompile_with_options` returns `Ok` with the
Display rendering of the value, in both dialects (and for every option
set, hence both modes). -/
theorem c9_value_only_render :
    (∀ (bytes : List Nat) (options : DecompileOptions) (atoms : AtomTable)
        (r : ReaderSt) (v : Value) (r2 : ReaderSt),
      resolveVersion options bytes = .current →
      readAtomTable (ReaderSt.mk bytes 0) = .ok (atoms, r) →
      readValue (fuelFor bytes) r atoms = .ok (v, r2) →
      collectFunctionsEntryFirst v = [] →
      decompileWithOptions bytes options = .ok (valueToString v)) ∧
    (∀ (bytes : List Nat) (options : DecompileOptions) (atoms : AtomTableV1)
        (r : ReaderSt) (v : Value) (r2 : ReaderSt),
      resolveVersion options bytes = .legacy →
      readAtomTableV1 (ReaderSt.mk bytes 0) = .ok (atoms, r) →
      readValueV1 (fuelFor bytes) r atoms = .ok (v, r2) →
      collectFunctionsEntryFirst v = [] →
      decompileWithOptions bytes options = .ok (valueToString v)) := by
  constructor
  · intro bytes options atoms r v r2 hver hat hval hfuncs
    unfold decompileWithOptions
    rw [hver]
    simp [hat, hval, hfuncs, Except.bind, Bind.bind, List.isEmpty]
  · intro bytes options atoms r v r2 hver hat hval hfuncs
    unfold decompileWithOptions
    rw [hver]
    simp [hat, hval, hfuncs, Except.bind, Bind.bind, List.isEmpty]

/-- C9 witness: the current-dialect module `[23, 0, 5, 42]` (no atoms,
top-level Int32 42) renders as `42`; the legacy module `[1, 0, 5, 42]`
does the same. -/
theorem c9_value_only_render_witness :
    decompileWithOptions [23, 0, 5, 42] DecompileOptions.default = .ok "42" ∧
    decompileWithOptions [1, 0, 5, 42] DecompileOptions.default = .ok "42" :=
  ⟨c9_value_only_render.1 [23, 0, 5, 42] DecompileOptions.default
      (AtomTable.mk AtomTable.builtinEndAtomId []) (ReaderSt.mk [23, 0, 5, 42] 2)
      (Value.int32 42) (ReaderSt.mk [23, 0, 5, 42] 4) rfl rfl rfl rfl,
   c9_value_only_render.2 [1, 0, 5, 42] DecompileOptions.default
      (AtomTableV1.mk (LEGACY_V1_ATOMS ++ [])) (ReaderSt.mk [1, 0, 5, 42] 2)
      (Value.int32 42) (ReaderSt.mk [1, 0, 5, 42] 4) rfl rfl rfl rfl⟩

/-- A string that begins with a slash does not trim to empty. -/
theorem trim_comment_nonempty (t : String) :
    (trimStr ("// Pseudo decompilation error: " ++ t ++ "\n")).isEmpty = false := by
  have key : ∀ (m : List Char), m ≠ [] → (String.mk m).isEmpty = false := by
    intro m hm
    cases hb : (String.mk m).isEmpty
    · rfl
    · exact absurd (congrArg String.data ((String.isEmpty_iff _).mp hb)) hm
  have hd : ("// Pseudo decompilation error: " ++ t ++ "\n").toList
      = '/' :: (("/ Pseudo decompilation error: ".toList ++ t.toList) ++ ['\n']) := rfl
  unfold trimStr
  rw [hd]
  rw [List.dropWhile_cons]
  have hws : Char.isWhitespace '/' = false := by decide
  rw [hws]
  simp only [Bool.false_eq_true, if_false]
  apply key
  intro hnil
  have h2 : (('/' :: (("/ Pseudo decompilation error: ".toList ++ t.toList) ++ ['\n'])).reverse.dropWhile
      Char.isWhitespace) = [] := by
    have := congrArg List.reverse hnil
    simpa using this
  have h3 := List.dropWhile_eq_nil_iff.mp h2
  have h4 : '/' ∈ ('/' :: (("/ Pseudo decompilation error: ".toList ++ t.toList) ++ ['\n'])).reverse := by
    simp
  have h5 := h3 '/' h4
  simp at h5

/-- The per-function loop never errors in Pseudo mode when every
function's decode succeeds: emitter failures become comment text. -/
theorem decompileFunctionsLoop_pseudo_ok
    (options : DecompileOptions) (atoms : AtomTable)
    (decode : FunctionBytecode → Except DeqjsError (List Instr))
    (hmode : options.mode = .pseudo) :
    ∀ (funcs : List FunctionBytecode) (idx : Nat) (out : String),
      (∀ b, b ∈ funcs → ∃ ins, decode b = .ok ins) →
      ∃ s, decompileFunctionsLoop options atoms decode funcs idx out = .ok s := by
  intro funcs
  induction funcs with
  | nil => intro idx out _; exact ⟨out, rfl⟩
  | cons b rest ih =>
    intro idx out hdec
    obtain ⟨ins, hins⟩ := hdec b (List.mem_cons_self b rest)
    have hrest : ∀ b2, b2 ∈ rest → ∃ ins2, decode b2 = .ok ins2 :=
      fun b2 hb2 => hdec b2 (List.mem_cons_of_mem b hb2)
    rcases hp : pseudoDecompileFromInstrs b atoms ins (displayFuncName options b idx)
        options.optimize options.deobfuscate with e | s
    · simp only [decompileFunctionsLoop, hins, hmode, hp, Except.bind, Bind.bind]
      exact ih (idx + 1) _ hrest
    · simp only [decompileFunctionsLoop, hins, hmode, hp, Except.bind, Bind.bind]
      exact ih (idx + 1) _ hrest

/-- C10: in Pseudo mode, once every function decode has succeeded the
decompilation of the function list returns `Ok`; a function whose pseudo
emission fails contributes `// Pseudo decompilation error: …` comment
text instead of an error. -/
theorem c10_pseudo_mode_total :
    (∀ (funcs : List FunctionBytecode) (options : DecompileOptions)
        (atoms : AtomTable) (decode : FunctionBytecode → Except DeqjsError (List Instr)),
      options.mode = .pseudo →
      (∀ b, b ∈ funcs → ∃ ins, decode b = .ok ins) →
      ∃ s, decompileFunctionsWith funcs options atoms decode = .ok s) ∧
    (∀ (b : FunctionBytecode) (options : DecompileOptions) (atoms : AtomTable)
        (decode : FunctionBytecode → Except DeqjsError (List Instr))
        (ins : List Instr) (e : DeqjsError),
      options.mode = .pseudo →
      decode b = .ok ins →
      pseudoDecompileFromInstrs b atoms ins (displayFuncName options b 0)
        options.optimize options.deobfuscate = .error e →
      decompileFunctionsWith [b] options atoms decode =
        .ok ("// Pseudo decompilation error: " ++ errToString e ++ "\n")) := by
  constructor
  · intro funcs options atoms decode hmode hdec
    exact decompileFunctionsLoop_pseudo_ok options atoms decode hmode funcs 0 "" hdec
  · intro b options atoms decode ins e hmode hins hp
    unfold decompileFunctionsWith
    simp only [decompileFunctionsLoop, hins, hmode, hp, Except.bind, Bind.bind, pure,
      Except.pure]
    have h0 : "".isEmpty = true := rfl
    simp [trim_comment_nonempty, h0]

/-- C10 witness: the empty function decodes and emits fine; and a
function whose only instruction is `get_var` with an unresolvable atom
index makes the emitter fail, which surfaces as the comment line. -/
theorem c10_pseudo_mode_total_witness :
    (∃ s, decompileFunctionsWith [funcEmpty] DecompileOptions.default atEmpty
      decodeInstructionsV1 = .ok s) ∧
    decompileFunctionsWith [funcEmpty] DecompileOptions.default atEmpty
        (fun _ => .ok [getVarIns 1]) =
      .ok ("// Pseudo decompilation error: " ++
        errToString (.invalidAtomIndex 1) ++ "\n") :=
  ⟨c10_pseudo_mode_total.1 [funcEmpty] DecompileOptions.default atEmpty
      decodeInstructionsV1 rfl
      (fun b hb => ⟨[], by cases hb with | head => rfl | tail _ h => cases h⟩),
   c10_pseudo_mode_total.2 funcEmpty DecompileOptions.default atEmpty
      (fun _ => .ok [getVarIns 1]) [getVarIns 1] (.invalidAtomIndex 1) rfl rfl rfl⟩

/-- C1 counterexample: `get_var` is listed by the claim among the
atom-operand instructions whose resolution failures are captured inline,
but its handler propagates the error, aborting the whole function's
pseudo emission. -/
theorem c1_get_var_aborts :
    pseudoDecompileFromInstrs funcEmpty atEmpty [getVarIns 1, retUndefIns 5] "f" false false
      = .error (.invalidAtomIndex 1) := rfl

/-- C1 (amended): only `define_field`, `set_name`, `define_class` and
`define_method` capture atom-resolution failures as inline
`// Atom resolution error:` comments and keep emitting; `get_var`
propagates the failure.  The last conjunct shows a captured failure
flowing through the whole emitter with the following `return` intact. -/
theorem c1_atom_error_capture :
    (∀ (t : AtomTable) (idx : Nat),
      t.resolveIdx idx = .error (.invalidAtomIndex idx) →
      execInstr funcEmpty t false (defineFieldIns idx) [] [] =
        .ok (["<obj>"],
          [.expr ("// Atom resolution error: " ++ errToString (.invalidAtomIndex idx)),
           .expr "<obj>.<invalid_atom> = <value>"]) ∧
      execInstr funcEmpty t false (setNameIns idx) [] [] =
        .ok (["<obj>"],
          [.expr ("// Atom resolution error: " ++ errToString (.invalidAtomIndex idx)),
           .expr "<obj>.name = \"<invalid_atom>\""]) ∧
      execInstr funcEmpty t false (defineClassIns idx) [] [] =
        .ok (["<proto>", "<ctor>"],
          [.expr ("// Atom resolution error: " ++ errToString (.invalidAtomIndex idx)),
           .expr "class <invalid_atom> extends <parent_ctor>"]) ∧
      execInstr funcEmpty t false (defineMethodIns idx) [] [] =
        .ok (["<obj>"],
          [.expr ("// Atom resolution error: " ++ errToString (.invalidAtomIndex idx)),
           .expr "<obj>.<invalid_atom> = <method>"]) ∧
      execInstr funcEmpty t false (getVarIns idx) [] [] =
        .error (.invalidAtomIndex idx)) ∧
    pseudoDecompileFromInstrs funcEmpty atEmpty [defineFieldIns 1, retUndefIns 5]
        "f" false false =
      .ok ("function f() \x7b\n  L0:\n  // Atom resolution error: invalid atom index: 1;\n  <obj>.<invalid_atom> = <value>;\n  return;\n\x7d\n") := by
  refine ⟨?_, rfl⟩
  intro t idx h
  refine ⟨?_, ?_, ?_, ?_, ?_⟩
  · simp [execInstr, defineFieldIns, popOr, h, strStarts, strDropChars, allDigits]
  · simp [execInstr, setNameIns, popOr, h, strStarts, strDropChars, allDigits]
  · simp [execInstr, defineClassIns, popOr, h, strStarts, strDropChars, allDigits]
  · simp [execInstr, defineMethodIns, popOr, h, strStarts, strDropChars, allDigits]
  · simp [execInstr, getVarIns, popOr, h, Except.bind, Bind.bind, strStarts, strDropChars,
      allDigits]

/-- C1 witness: the amended behaviour at the empty atom table and
index 1. -/
theorem c1_atom_error_capture_witness :
    execInstr funcEmpty atEmpty false (defineFieldIns 1) [] [] =
        .ok (["<obj>"],
          [.expr ("// Atom resolution error: " ++ errToString (.invalidAtomIndex 1)),
           .expr "<obj>.<invalid_atom> = <value>"]) ∧
      execInstr funcEmpty atEmpty false (getVarIns 1) [] [] =
        .error (.invalidAtomIndex 1) :=
  ⟨(c1_atom_error_capture.1 atEmpty 1 rfl).1,
   (c1_atom_error_capture.1 atEmpty 1 rfl).2.2.2.2⟩

/-- Disjoint OR of a low part and a shifted 7-bit group is addition. -/
theorem sleb_or_disjoint (acc m shift : Nat) (ha : acc < 2 ^ shift) :
    acc ||| (m <<< shift) = m * 2 ^ shift + acc := by
  rw [Nat.shiftLeft_eq, Nat.or_comm, Nat.mul_comm m (2 ^ shift)]
  exact (Nat.mul_add_lt_is_or ha m).symm

/-- Low-7-bit extraction. -/
theorem sleb_and_7f (b : Nat) : b &&& 0x7f = b % 128 := by
  have h := Nat.and_pow_two_sub_one_eq_mod b 7
  norm_num at h
  exact h

/-- Bit 7 of a byte below 128 is clear. -/
theorem sleb_and_80_lo (b : Nat) (h : b < 128) : b &&& 0x80 = 0 := by
  have h2 := Nat.and_two_pow b 7
  have h3 : b.testBit 7 = false := Nat.testBit_lt_two_pow (by norm_num; omega)
  norm_num at h2
  rw [h3] at h2
  simpa using h2

/-- Bit 7 of a byte in [128, 256) is set. -/
theorem sleb_and_80_hi (b : Nat) (h1 : 128 ≤ b) (h2 : b < 256) : b &&& 0x80 = 128 := by
  have hb := Nat.and_two_pow b 7
  have h3 : b.testBit 7 = true := by
    rw [Nat.testBit_to_div_mod]
    have : b / 2 ^ 7 = 1 := by norm_num; omega
    rw [this]
    decide
  rw [h3] at hb
  norm_num at hb
  exact hb

/-- Bit 6 of a byte below 64 is clear. -/
theorem sleb_and_40_lo (b : Nat) (h : b < 64) : b &&& 0x40 = 0 := by
  have h2 := Nat.and_two_pow b 6
  have h3 : b.testBit 6 = false := Nat.testBit_lt_two_pow (by norm_num; omega)
  norm_num at h2
  rw [h3] at h2
  simpa using h2

/-- Bit 6 of a byte in [64, 128) is set. -/
theorem sleb_and_40_hi (b : Nat) (h1 : 64 ≤ b) (h2 : b < 128) : b &&& 0x40 = 64 := by
  have hb := Nat.and_two_pow b 6
  have h3 : b.testBit 6 = true := by
    rw [Nat.testBit_to_div_mod]
    have : b / 2 ^ 6 = 1 := by norm_num; omega
    rw [this]
    decide
  rw [h3] at hb
  norm_num at hb
  exact hb

/-- `Int.emod`/`Int.ediv` are the `%`/`/` of `Int`. -/
theorem sleb_emod_eq (v : Int) : v.emod 128 = v % 128 := rfl

theorem sleb_ediv_eq (v : Int) : v.ediv 128 = v / 128 := rfl

/-- One terminal encoder byte decodes to the expected value. -/
theorem sleb_loop_single (v : Int) (shift acc : Nat) (h1 : -64 ≤ v) (h2 : v < 64)
    (ha : acc < 2 ^ shift) (hs : shift + 7 ≤ 63) :
    ∃ aOut lOut, slebLoop [(v.emod 128).toNat] shift acc = .ok (aOut, shift + 7, lOut, 1) ∧
      aOut < 2 ^ (shift + 7) ∧ lOut < 128 ∧
      (if lOut &&& 0x40 = 0 then (aOut : Int) else (aOut : Int) - 2 ^ (shift + 7)) =
        acc + v * 2 ^ shift := by
  set m : Nat := (v.emod 128).toNat with hm
  have hmv : (m : Int) = v % 128 := by
    rw [hm, sleb_emod_eq]
    exact Int.toNat_of_nonneg (Int.emod_nonneg v (by norm_num))
  have hm128 : m < 128 := by
    have h := Int.emod_lt_of_pos v (show (0:Int) < 128 by norm_num)
    rw [← sleb_emod_eq] at h
    omega
  have hacc' : acc ||| (m % 128) <<< shift = m * 2 ^ shift + acc := by
    rw [Nat.mod_eq_of_lt hm128]
    exact sleb_or_disjoint acc m shift ha
  have hsum_lt : m * 2 ^ shift + acc < 2 ^ (shift + 7) := by
    have hp : 2 ^ (shift + 7) = 2 ^ shift * 128 := by rw [pow_add]; norm_num
    have : m * 2 ^ shift + acc < 128 * 2 ^ shift := by nlinarith [ha, hm128]
    rw [hp]; nlinarith [this]
  have hlt64 : m * 2 ^ shift + acc < 2 ^ 64 := by
    have h63 : 2 ^ (shift + 7) ≤ 2 ^ 63 := Nat.pow_le_pow_right (by norm_num) (by omega)
    have : (2:Nat) ^ 63 < 2 ^ 64 := by norm_num
    omega
  refine ⟨m * 2 ^ shift + acc, m, ?_, hsum_lt, hm128, ?_⟩
  · show slebLoop [m] shift acc = _
    unfold slebLoop
    rw [sleb_and_7f, sleb_and_80_lo m hm128]
    simp only [if_true, reduceIte]
    rw [hacc', Nat.mod_eq_of_lt hlt64]
  · rcases Int.lt_or_le v 0 with hneg | hpos
    · have hemod : v % 128 = v + 128 := by omega
      have hm64 : 64 ≤ m := by omega
      rw [sleb_and_40_hi m hm64 hm128]
      simp only [if_neg (by norm_num : (64:Nat) ≠ 0)]
      have hp : ((2:Int) ^ (shift + 7)) = 2 ^ shift * 128 := by rw [pow_add]; norm_num
      push_cast
      rw [hp]
      have : (m : Int) = v + 128 := by omega
      nlinarith [this]
    · have hemod : v % 128 = v := by omega
      have hm64 : m < 64 := by omega
      rw [sleb_and_40_lo m hm64]
      simp only [if_pos rfl]
      push_cast
      have : (m : Int) = v := by omega
      nlinarith [this]

set_option maxHeartbeats 1000000 in
/-- Decoding the canonical encoding, generalized over the starting shift
and accumulator. -/
theorem sleb_loop_encode : ∀ (fuel : Nat) (v : Int) (shift acc : Nat),
    -(2:Int) ^ (7 * fuel + 6) ≤ v → v < (2:Int) ^ (7 * fuel + 6) →
    acc < 2 ^ shift → shift + 7 * fuel + 7 ≤ 63 →
    ∃ aOut lOut,
      slebLoop (slebEncodeCanonicalF (fuel + 1) v) shift acc =
        .ok (aOut, shift + 7 * (slebEncodeCanonicalF (fuel + 1) v).length, lOut,
          (slebEncodeCanonicalF (fuel + 1) v).length) ∧
      aOut < 2 ^ (shift + 7 * (slebEncodeCanonicalF (fuel + 1) v).length) ∧ lOut < 128 ∧
      (if lOut &&& 0x40 = 0 then (aOut : Int)
       else (aOut : Int) - 2 ^ (shift + 7 * (slebEncodeCanonicalF (fuel + 1) v).length)) =
        acc + v * 2 ^ shift := by
  intro fuel
  induction fuel with
  | zero =>
    intro v shift acc hlo hhi ha hs
    norm_num at hlo hhi
    have henc : slebEncodeCanonicalF 1 v = [(v.emod 128).toNat] := by
      unfold slebEncodeCanonicalF
      rw [if_pos ⟨hlo, hhi⟩]
    rw [henc]
    simp only [List.length_singleton, Nat.mul_one]
    exact sleb_loop_single v shift acc hlo hhi ha (by omega)
  | succ fuel ih =>
    intro v shift acc hlo hhi ha hs
    by_cases hsmall : -64 ≤ v ∧ v < 64
    · have henc : slebEncodeCanonicalF (fuel + 1 + 1) v = [(v.emod 128).toNat] := by
        unfold slebEncodeCanonicalF
        rw [if_pos hsmall]
      rw [henc]
      simp only [List.length_singleton, Nat.mul_one]
      exact sleb_loop_single v shift acc hsmall.1 hsmall.2 ha (by omega)
    · set m : Nat := (v.emod 128).toNat with hm
      have hmv : (m : Int) = v % 128 := by
        rw [hm, sleb_emod_eq]
        exact Int.toNat_of_nonneg (Int.emod_nonneg v (by norm_num))
      have hm128 : m < 128 := by
        have h := Int.emod_lt_of_pos v (show (0:Int) < 128 by norm_num)
        rw [← sleb_emod_eq] at h
        omega
      have henc : slebEncodeCanonicalF (fuel + 1 + 1) v =
          (m + 128) :: slebEncodeCanonicalF (fuel + 1) (v.ediv 128) := by
        conv_lhs => rw [slebEncodeCanonicalF]
        rw [if_neg hsmall]
      have hb7 : (m + 128) &&& 0x7f = m := by
        rw [sleb_and_7f]
        omega
      have hb8 : (m + 128) &&& 0x80 = 128 := sleb_and_80_hi (m + 128) (by omega) (by omega)
      have hacc' : acc ||| m <<< shift = m * 2 ^ shift + acc := sleb_or_disjoint acc m shift ha
      have hsum_lt : m * 2 ^ shift + acc < 2 ^ (shift + 7) := by
        have hp : 2 ^ (shift + 7) = 2 ^ shift * 128 := by rw [pow_add]; norm_num
        have h1 : m * 2 ^ shift + acc < 128 * 2 ^ shift := by nlinarith [ha, hm128]
        rw [hp]; nlinarith [h1]
      have hlt64 : m * 2 ^ shift + acc < 2 ^ 64 := by
        have h63 : 2 ^ (shift + 7) ≤ 2 ^ 63 := Nat.pow_le_pow_right (by norm_num) (by omega)
        have : (2:Nat) ^ 63 < 2 ^ 64 := by norm_num
        omega
      have hlo' : -(2:Int) ^ (7 * fuel + 6) ≤ v.ediv 128 := by
        rw [sleb_ediv_eq]
        rw [Int.le_ediv_iff_mul_le (by norm_num : (0:Int) < 128)]
        have hp : (2:Int) ^ (7 * (fuel + 1) + 6) = 2 ^ (7 * fuel + 6) * 128 := by
          rw [show 7 * (fuel + 1) + 6 = (7 * fuel + 6) + 7 by ring, pow_add]
          norm_num
        nlinarith [hlo, hp]
      have hhi' : v.ediv 128 < (2:Int) ^ (7 * fuel + 6) := by
        rw [sleb_ediv_eq]
        rw [Int.ediv_lt_iff_lt_mul (by norm_num : (0:Int) < 128)]
        have hp : (2:Int) ^ (7 * (fuel + 1) + 6) = 2 ^ (7 * fuel + 6) * 128 := by
          rw [show 7 * (fuel + 1) + 6 = (7 * fuel + 6) + 7 by ring, pow_add]
          norm_num
        nlinarith [hhi, hp]
      obtain ⟨aOut, lOut, heq, hbound, hl, hinterp⟩ :=
        ih (v.ediv 128) (shift + 7) (m * 2 ^ shift + acc) hlo' hhi' hsum_lt (by omega)
      refine ⟨aOut, lOut, ?_, ?_, hl, ?_⟩
      · rw [henc]
        show slebLoop ((m + 128) :: _) shift acc = _
        unfold slebLoop
        rw [hb7, hb8]
        simp only [List.length_cons]
        rw [if_neg (by norm_num : ¬ (128 = 0)), if_neg (by omega : ¬ 64 ≤ shift + 7)]
        rw [hacc', Nat.mod_eq_of_lt hlt64, heq]
        have harith : shift + 7 + 7 * (slebEncodeCanonicalF (fuel + 1) (v.ediv 128)).length =
            shift + 7 * ((slebEncodeCanonicalF (fuel + 1) (v.ediv 128)).length + 1) := by ring
        rw [harith]
      · rw [henc]
        simp only [List.length_cons]
        have harith : shift + 7 + 7 * (slebEncodeCanonicalF (fuel + 1) (v.ediv 128)).length =
            shift + 7 * ((slebEncodeCanonicalF (fuel + 1) (v.ediv 128)).length + 1) := by ring
        rw [← harith]
        exact hbound
      · rw [henc]
        simp only [List.length_cons]
        have harith : shift + 7 + 7 * (slebEncodeCanonicalF (fuel + 1) (v.ediv 128)).length =
            shift + 7 * ((slebEncodeCanonicalF (fuel + 1) (v.ediv 128)).length + 1) := by ring
        rw [← harith]
        rw [hinterp]
        have hvdecomp : v = 128 * (v / 128) + v % 128 := by omega
        have hp : ((2:Int) ^ (shift + 7)) = 2 ^ shift * 128 := by rw [pow_add]; norm_num
        rw [sleb_ediv_eq]
        push_cast
        rw [hp]
        nlinarith [hvdecomp, hmv]

/-- The canonical encoder emits at most `fuel` bytes. -/
theorem sleb_encode_length : ∀ (fuel : Nat) (v : Int),
    (slebEncodeCanonicalF fuel v).length ≤ fuel := by
  intro fuel
  induction fuel with
  | zero => intro v; simp [slebEncodeCanonicalF]
  | succ fuel ih =>
    intro v
    unfold slebEncodeCanonicalF
    split
    · simp
    · simp only [List.length_cons]
      have := ih (v.ediv 128)
      omega

/-- Round trip: the reader decodes the canonical encoding of any i32
back to the value, consuming the whole encoding. -/
theorem sleb_canonical_decode (v : Int) (h1 : -(2:Int) ^ 31 ≤ v) (h2 : v < (2:Int) ^ 31) :
    ReaderSt.getSleb128I32 (ReaderSt.mk (slebEncodeCanonical v) 0) =
      .ok (v, ReaderSt.mk (slebEncodeCanonical v) (slebEncodeCanonical v).length) := by
  have hlo : -(2:Int) ^ (7 * 4 + 6) ≤ v := by norm_num; omega
  have hhi : v < (2:Int) ^ (7 * 4 + 6) := by norm_num; omega
  obtain ⟨aOut, lOut, heq, hbound, hl, hinterp⟩ :=
    sleb_loop_encode 4 v 0 0 hlo hhi (by norm_num) (by norm_num)
  have hlen5 : (slebEncodeCanonicalF 5 v).length ≤ 5 := sleb_encode_length 5 v
  set len : Nat := (slebEncodeCanonicalF 5 v).length with hlendef
  have hencdef : slebEncodeCanonical v = slebEncodeCanonicalF 5 v := rfl
  simp only [Nat.zero_add, pow_zero, mul_one, Nat.cast_zero, zero_add] at hinterp hbound heq
  unfold ReaderSt.getSleb128I32
  simp only [hencdef, List.drop_zero]
  rw [heq]
  simp only [Nat.zero_add]
  have hs64 : 7 * len < 64 := by omega
  have hps : (2:Nat) ^ (7 * len) ≤ 2 ^ 64 := Nat.pow_le_pow_right (by norm_num) (by omega)
  have hcast : ((2 ^ (7 * len) : Nat) : Int) = (2:Int) ^ (7 * len) := by push_cast; ring
  have hfin : slebFinish aOut (7 * len) lOut = v := by
    by_cases hsign : lOut &&& 0x40 = 0
    · rw [if_pos hsign] at hinterp
      have hA : slebFinish aOut (7 * len) lOut = toInt32 aOut := by
        unfold slebFinish
        rw [if_neg (by simp [hsign] : ¬ (7 * len < 64 ∧ lOut &&& 0x40 ≠ 0))]
      rw [hA]
      unfold toInt32
      have haOut31 : aOut < 2 ^ 31 := by omega
      rw [Nat.mod_eq_of_lt (show aOut < 2 ^ 32 by omega)]
      rw [if_pos haOut31]
      exact hinterp
    · rw [if_neg hsign] at hinterp
      have hor : aOut ||| (2 ^ 64 - 2 ^ (7 * len)) = aOut + (2 ^ 64 - 2 ^ (7 * len)) := by
        have hB : (2:Nat) ^ (64 - 7 * len) = (2 ^ (64 - 7 * len) - 1) + 1 :=
          (Nat.succ_pred_eq_of_pos (Nat.pos_pow_of_pos _ (by norm_num))).symm
        have hmul : (2:Nat) ^ (7 * len) * 2 ^ (64 - 7 * len) = 2 ^ 64 := by
          rw [← pow_add]
          congr 1
          omega
        have hmul2 : (2:Nat) ^ (7 * len) * ((2 ^ (64 - 7 * len) - 1) + 1) = 2 ^ 64 := by
          rw [← hB]; exact hmul
        rw [Nat.mul_succ] at hmul2
        have hfac : 2 ^ 64 - 2 ^ (7 * len) = 2 ^ (7 * len) * (2 ^ (64 - 7 * len) - 1) := by
          omega
        rw [hfac, Nat.or_comm]
        rw [← Nat.mul_add_lt_is_or hbound (2 ^ (64 - 7 * len) - 1)]
        omega
      have hmod64 : (aOut + (2 ^ 64 - 2 ^ (7 * len))) % 2 ^ 64 =
          aOut + (2 ^ 64 - 2 ^ (7 * len)) :=
        Nat.mod_eq_of_lt (by omega)
      have hA : slebFinish aOut (7 * len) lOut =
          toInt32 ((aOut ||| (2 ^ 64 - 2 ^ (7 * len))) % 2 ^ 64) := by
        unfold slebFinish
        rw [if_pos ⟨hs64, hsign⟩]
      rw [hA, hor, hmod64]
      unfold toInt32
      have hvneg : v < 0 := by omega
      set w : Nat := (-v).toNat with hwdef
      have hwv : (w : Int) = -v := Int.toNat_of_nonneg (by omega)
      have haOutNat : aOut + w = 2 ^ (7 * len) := by omega
      have hN : aOut + (2 ^ 64 - 2 ^ (7 * len)) = 2 ^ 64 - w := by omega
      rw [hN]
      have hw31 : w ≤ 2 ^ 31 := by omega
      have hw1 : 1 ≤ w := by omega
      have hmod32 : (2 ^ 64 - w) % 2 ^ 32 = 2 ^ 32 - w := by omega
      rw [hmod32]
      rw [if_neg (by omega : ¬ ((2:Nat) ^ 32 - w < 2 ^ 31))]
      have hsubcast : ((2 ^ 32 - w : Nat) : Int) = 2 ^ 32 - (w : Int) := by
        rw [Nat.cast_sub (by omega)]
        push_cast; ring
      omega
  rw [hfin]

/-- C4 counterexample: the overlong encoding `[0x80, 0x00]` of zero
(canonically `[0x00]`) is accepted by the reader and decodes to 0; the
claimed `InvalidSleb128` failure on overlong encodings does not happen. -/
theorem c4_overlong_accepted :
    slebEncodeCanonical 0 = [0] ∧
    ReaderSt.getSleb128I32 (ReaderSt.mk [128, 0] 0) = .ok (0, ReaderSt.mk [128, 0] 2) :=
  ⟨rfl, rfl⟩

/-- C4 (amended): decoding the canonical SLEB128 encoding of any i32
yields the value back (consuming the whole encoding); the only encodings
the reader rejects with `InvalidSleb128` are those whose continuation
run pushes the shift to 64 or beyond, such as ten continuation bytes. -/
theorem c4_canonical_roundtrip :
    (∀ v : Int, -(2:Int) ^ 31 ≤ v → v < (2:Int) ^ 31 →
      ReaderSt.getSleb128I32 (ReaderSt.mk (slebEncodeCanonical v) 0) =
        .ok (v, ReaderSt.mk (slebEncodeCanonical v) (slebEncodeCanonical v).length)) ∧
    ReaderSt.getSleb128I32 (ReaderSt.mk (List.replicate 10 128) 0) =
      .error .invalidSleb128 :=
  ⟨sleb_canonical_decode, rfl⟩

/-- C4 witness: the round trip at `v = -3` (one byte, 0x7d). -/
theorem c4_canonical_roundtrip_witness :
    ReaderSt.getSleb128I32 (ReaderSt.mk (slebEncodeCanonical (-3)) 0) =
      .ok (-3, ReaderSt.mk (slebEncodeCanonical (-3)) (slebEncodeCanonical (-3)).length) :=
  c4_canonical_roundtrip.1 (-3) (by norm_num) (by norm_num)
